import Mathlib

/-!
Shallow embedding of the netbox-sync object model
(`module/netbox/object_classes.py`): the schema-validated `NetBoxObject`
base class, its `update`/`parse` pipeline, slug formatting, tag and VLAN
collection compilers, display names and relation resolution, together
with the entity-type registry declared in the same file.

Python machine model: strings are Lean strings, integers are unbounded
`Int` (as in Python), floats are modelled as rationals (no NaN /
rounding; the claims under study only exercise exact values), `None` is
`Value.none`, dicts are ordered association lists, and object identity
is modelled by handles (indices) into the inventory store.  Exceptions
are modelled with `Except`; logged errors and change records are
returned as event lists.
-/

/-- Python runtime values as used by the object model. `tagsV`/`vlansV`
are the `NBTagList`/`NBVLANList` list subclasses (they hold entity
handles); `ipnet` is a parsed `ipaddress.ip_network` value, kept as its
source text. -/
inductive Value where
  | none
  | str (s : String)
  | int (n : Int)
  | bool (b : Bool)
  | float (q : ℚ)
  | obj (h : Nat)
  | vlist (l : List Value)
  | vdict (d : List (String × Value))
  | tagsV (hs : List Nat)
  | vlansV (hs : List Nat)
  | ipnet (s : String)

/-- First-match lookup in an ordered association list (Python `dict.get`). -/
def alookup : List (String × Value) → String → Option Value
  | [], _ => Option.none
  | (k, v) :: rest, key => if k = key then some v else alookup rest key

/-- Python `dict[key] = value`: replace in place if the key exists
(insertion order is preserved), else append. -/
def aset : List (String × Value) → String → Value → List (String × Value)
  | [], key, v => [(key, v)]
  | (k, w) :: rest, key, v =>
    if k = key then (key, v) :: rest else (k, w) :: aset rest key v

/-- Compare a handle list with a plain value list the way Python compares
a list of objects with an arbitrary list: equal iff same length and each
element of the second list is the identical object. -/
def eqObjs : List Nat → List Value → Bool
  | [], [] => true
  | h :: hs, Value.obj h' :: vs => h == h' && eqObjs hs vs
  | _, _ => false

mutual

/-- Python `==` on embedded values.  Numbers compare across `int` /
`float` / `bool` by numeric value (Python `4 == 4.0` is true); entities
compare by identity (handle); lists element-wise.  List subclasses
(`NBTagList`, `NBVLANList`) compare as plain lists of their members.
Dicts compare item-wise in order — a simplification of Python's
order-insensitive dict equality that agrees with it whenever the two
dicts list their keys in the same order, which is the only way dicts are
compared by the analysed code paths. -/
def pyEq : Value → Value → Bool
  | .none, .none => true
  | .str a, .str b => a == b
  | .int a, .int b => a == b
  | .int a, .float q => (a : ℚ) == q
  | .float q, .int a => q == (a : ℚ)
  | .float a, .float b => a == b
  | .bool a, .bool b => a == b
  | .bool a, .int b => (if a then (1 : Int) else 0) == b
  | .int a, .bool b => a == (if b then (1 : Int) else 0)
  | .bool a, .float b => (if a then (1 : ℚ) else 0) == b
  | .float a, .bool b => a == (if b then (1 : ℚ) else 0)
  | .obj a, .obj b => a == b
  | .ipnet a, .ipnet b => a == b
  | .vlist a, .vlist b => pyEqList a b
  | .vlist a, .tagsV b => eqObjs b a
  | .vlist a, .vlansV b => eqObjs b a
  | .tagsV a, .vlist b => eqObjs a b
  | .vlansV a, .vlist b => eqObjs a b
  | .tagsV a, .tagsV b => a == b
  | .tagsV a, .vlansV b => a == b
  | .vlansV a, .tagsV b => a == b
  | .vlansV a, .vlansV b => a == b
  | .vdict a, .vdict b => pyEqDict a b
  | _, _ => false

/-- Element-wise Python `==` on lists. -/
def pyEqList : List Value → List Value → Bool
  | [], [] => true
  | a :: as', b :: bs => pyEq a b && pyEqList as' bs
  | _, _ => false

/-- Item-wise dict comparison (keys in order, values by `pyEq`). -/
def pyEqDict : List (String × Value) → List (String × Value) → Bool
  | [], [] => true
  | (k, v) :: as', (k', w) :: bs => k == k' && pyEq v w && pyEqDict as' bs
  | _, _ => false

end

/-- Rendering of a rational as a Python float string.  Exact only for
integral values (`4.0`); non-integral rationals get a model-specific but
injective rendering, which suffices because the code only compares these
strings for equality. -/
def floatStr (q : ℚ) : String :=
  if q.den = 1 then toString q.num ++ ".0"
  else toString q.num ++ "/" ++ toString q.den ++ "f"

/-- Comma-joined reprs of a handle list (a rendered `NBObjectList`). -/
def pyReprObjs : List Nat → String
  | [] => ""
  | [h] => "<obj " ++ toString h ++ ">"
  | h :: rest => "<obj " ++ toString h ++ ">" ++ ", " ++ pyReprObjs rest

mutual

/-- Python `repr()` of a value, as used when a value is rendered inside
a list or dict.  Object `repr` contains the memory id, so two object
reprs coincide exactly when they are the same object: we render the
handle.  The renderings are injective per constructor, which is what the
string-comparison sites in `update` rely on. -/
def pyRepr : Value → String
  | .none => "None"
  | .str s => "'" ++ s ++ "'"
  | .int n => toString n
  | .bool b => if b then "True" else "False"
  | .float q => floatStr q
  | .obj h => "<obj " ++ toString h ++ ">"
  | .vlist l => "[" ++ pyReprList l ++ "]"
  | .tagsV hs => "[" ++ pyReprObjs hs ++ "]"
  | .vlansV hs => "[" ++ pyReprObjs hs ++ "]"
  | .vdict d => "\x7b" ++ pyReprDict d ++ "\x7d"
  | .ipnet s => "'" ++ s ++ "'n"

/-- Comma-joined reprs of list elements. -/
def pyReprList : List Value → String
  | [] => ""
  | [v] => pyRepr v
  | v :: rest => pyRepr v ++ ", " ++ pyReprList rest

/-- Comma-joined reprs of dict items. -/
def pyReprDict : List (String × Value) → String
  | [] => ""
  | [(k, v)] => "'" ++ k ++ "': " ++ pyRepr v
  | (k, v) :: rest => "'" ++ k ++ "': " ++ pyRepr v ++ ", " ++ pyReprDict rest

end

/-- Python `str()` of a value: like `repr` but strings render bare and
`ipnet` renders its text. -/
def pyStr : Value → String
  | .str s => s
  | .ipnet s => s
  | v => pyRepr v

/-- Python truthiness-style `is not None`. -/
def isNotNone : Value → Bool
  | .none => false
  | _ => true

/-- `p` is a prefix of `s` (char-wise; kernel-computable
`String.startsWith`). -/
def listPre : List Char → List Char → Bool
  | [], _ => true
  | _ :: _, [] => false
  | a :: as', b :: bs => a == b && listPre as' bs

/-- `s.startswith(p)`. -/
def strStarts (s p : String) : Bool := listPre p.data s.data

/-- `s.replace("\r", "")`. -/
def stripCR (s : String) : String := String.mk (s.data.filter (fun c => c ≠ '\r'))

/-- `s.replace("\n", " ")`. -/
def nlToSpace (s : String) : String :=
  String.mk (s.data.map fun c => if c = '\n' then ' ' else c)

/-- `isinstance(v, (int, float))` — Python booleans are integers. -/
def pyNumeric : Value → Bool
  | .int _ => true
  | .float _ => true
  | .bool _ => true
  | _ => false

/-- `float(v)` for the values the model treats as numeric.  Python also
parses numeric strings; the model does not (`Option.none` stands for the
raised `TypeError`/`ValueError`). -/
def pyFloatQ : Value → Option ℚ
  | .int n => some (n : ℚ)
  | .float q => some q
  | .bool b => some (if b then 1 else 0)
  | _ => Option.none

mutual

/-- Structural value equality, used by the modelled inventory to
memoise get-or-create requests ("a second request for the same natural
key during the same pass returns the same handle"). -/
def vbeq : Value → Value → Bool
  | .none, .none => true
  | .str a, .str b => a == b
  | .int a, .int b => a == b
  | .bool a, .bool b => a == b
  | .float a, .float b => a == b
  | .obj a, .obj b => a == b
  | .ipnet a, .ipnet b => a == b
  | .vlist a, .vlist b => vbeqList a b
  | .vdict a, .vdict b => vbeqDict a b
  | .tagsV a, .tagsV b => a == b
  | .vlansV a, .vlansV b => a == b
  | _, _ => false

/-- Structural equality on value lists. -/
def vbeqList : List Value → List Value → Bool
  | [], [] => true
  | a :: as', b :: bs => vbeq a b && vbeqList as' bs
  | _, _ => false

/-- Structural equality on dicts (keys, values and order). -/
def vbeqDict : List (String × Value) → List (String × Value) → Bool
  | [], [] => true
  | (k, v) :: as', (k', w) :: bs => k == k' && vbeq v w && vbeqDict as' bs
  | _, _ => false

end

/-- The characters NetBox accepts in a slug: `[a-z0-9_-]`. -/
def permittedChars : List Char := "abcdefghijklmnopqrstuvwxyz0123456789_-".data

/-- Python `s[0:n]` slicing on strings (by code points). -/
def truncStr (n : Nat) (s : String) : String := String.mk (s.data.take n)

/-- `format_slug`'s separator replacement: space, comma and period
become a dash. -/
def sepRepl (c : Char) : Char := if c = ' ' ∨ c = ',' ∨ c = '.' then '-' else c

/-- `NetBoxObject.format_slug(text, max_len)`: raises (here
`Option.none`) on `None`/empty input; replaces separators with `-`,
lowercases, drops characters outside `[a-z0-9_-]` and truncates to
`max_len`. -/
def format_slug (text : String) (max_len : Nat) : Option String :=
  if text.data.length = 0 then Option.none
  else some (String.mk
    ((((text.data.map sepRepl).map Char.toLower).filter
        (· ∈ permittedChars)).take max_len))

/-- The entity types declared in `object_classes.py`.  `NBPfx` is the IP
prefix type (`ipam/prefixes`). -/
inductive TypeTag where
  | NBTag | NBTenant | NBSite | NBVRF | NBVLAN | NBPfx
  | NBManufacturer | NBDeviceType | NBPlatform | NBClusterType
  | NBClusterGroup | NBDeviceRole | NBCluster | NBDevice | NBVM
  | NBVMInterface | NBInterface | NBIPAddress
deriving DecidableEq, Repr

/-- A `data_model` entry: the permitted type of one attribute.
`bounded n` is an `int` instance (string truncated to `n`); `intT`,
`strT`, `boolT`, `floatT` are the primitive classes; `objT` is the
literal `object` class used for `primary_ip4`/`primary_ip6`; `ref t` is
a `NetBoxObject` subclass; `choice lits refs` is a `list` instance whose
members are string literals and/or `NetBoxObject` subclasses;
`tagListT`/`vlanListT` are the `NBObjectList` subclasses.  The
`[IPv4Network, IPv6Network]` list of `NBPfx.prefix` contains neither
string literals nor `NetBoxObject` subclasses and is embedded as
`choice [] []`. -/
inductive DataType where
  | bounded (n : Nat)
  | intT
  | strT
  | boolT
  | floatT
  | objT
  | ref (t : TypeTag)
  | choice (lits : List String) (refs : List TypeTag)
  | tagListT
  | vlanListT
deriving DecidableEq, Repr

/-- One entity type's static schema (the class attributes of a
`NetBoxObject` subclass). -/
structure NBType where
  tname : String
  api_path : String
  primary_key : String
  secondary_key : Option String := Option.none
  enforce_secondary_key : Bool := false
  prune : Bool := false
  data_model : List (String × DataType)
deriving Repr

/-- The registry of entity-type schemas, transcribed from the subclass
declarations in `object_classes.py`. -/
def typeOf : TypeTag → NBType
  | .NBTag =>
    { tname := "tag", api_path := "extras/tags", primary_key := "name",
      data_model := [("name", .bounded 100), ("slug", .bounded 100),
        ("color", .bounded 6), ("description", .bounded 200)] }
  | .NBTenant =>
    { tname := "tenant", api_path := "tenancy/tenants", primary_key := "name",
      data_model := [("name", .bounded 30), ("slug", .bounded 50),
        ("comments", .strT), ("description", .bounded 200),
        ("tags", .tagListT)] }
  | .NBSite =>
    { tname := "site", api_path := "dcim/sites", primary_key := "name",
      data_model := [("name", .bounded 50), ("slug", .bounded 50),
        ("comments", .strT), ("tenant", .ref .NBTenant),
        ("tags", .tagListT)] }
  | .NBVRF =>
    { tname := "VRF", api_path := "ipam/vrfs", primary_key := "name",
      data_model := [("name", .bounded 50), ("description", .bounded 200),
        ("tenant", .ref .NBTenant), ("tags", .tagListT)] }
  | .NBVLAN =>
    { tname := "VLAN", api_path := "ipam/vlans", primary_key := "vid",
      secondary_key := some "name", enforce_secondary_key := true,
      data_model := [("vid", .intT), ("name", .bounded 64),
        ("site", .ref .NBSite), ("description", .bounded 200),
        ("tenant", .ref .NBTenant), ("tags", .tagListT)] }
  | .NBPfx =>
    { tname := "IP prefix", api_path := "ipam/prefixes",
      primary_key := "prefix",
      data_model := [("prefix", .choice [] []), ("site", .ref .NBSite),
        ("tenant", .ref .NBTenant), ("vlan", .ref .NBVLAN),
        ("vrf", .ref .NBVRF), ("description", .bounded 200),
        ("tags", .tagListT)] }
  | .NBManufacturer =>
    { tname := "manufacturer", api_path := "dcim/manufacturers",
      primary_key := "name",
      data_model := [("name", .bounded 50), ("slug", .bounded 50),
        ("description", .bounded 200)] }
  | .NBDeviceType =>
    { tname := "device type", api_path := "dcim/device-types",
      primary_key := "model",
      data_model := [("model", .bounded 50), ("slug", .bounded 50),
        ("part_number", .bounded 50), ("description", .bounded 200),
        ("manufacturer", .ref .NBManufacturer), ("tags", .tagListT)] }
  | .NBPlatform =>
    { tname := "platform", api_path := "dcim/platforms",
      primary_key := "name",
      data_model := [("name", .bounded 100), ("slug", .bounded 100),
        ("manufacturer", .ref .NBManufacturer),
        ("description", .bounded 200)] }
  | .NBClusterType =>
    { tname := "cluster type", api_path := "virtualization/cluster-types",
      primary_key := "name",
      data_model := [("name", .bounded 50), ("slug", .bounded 50),
        ("description", .bounded 200)] }
  | .NBClusterGroup =>
    { tname := "cluster group", api_path := "virtualization/cluster-groups",
      primary_key := "name",
      data_model := [("name", .bounded 50), ("slug", .bounded 50),
        ("description", .bounded 200)] }
  | .NBDeviceRole =>
    { tname := "device role", api_path := "dcim/device-roles",
      primary_key := "name",
      data_model := [("name", .bounded 50), ("slug", .bounded 50),
        ("color", .bounded 6), ("description", .bounded 200),
        ("vm_role", .boolT)] }
  | .NBCluster =>
    { tname := "cluster", api_path := "virtualization/clusters",
      primary_key := "name",
      data_model := [("name", .bounded 100), ("comments", .strT),
        ("type", .ref .NBClusterType), ("group", .ref .NBClusterGroup),
        ("site", .ref .NBSite), ("tags", .tagListT)] }
  | .NBDevice =>
    { tname := "device", api_path := "dcim/devices", primary_key := "name",
      secondary_key := some "site", prune := true,
      data_model := [("name", .bounded 64),
        ("device_type", .ref .NBDeviceType),
        ("device_role", .ref .NBDeviceRole),
        ("platform", .ref .NBPlatform), ("serial", .bounded 50),
        ("site", .ref .NBSite),
        ("status", .choice ["offline", "active", "planned", "staged",
          "failed", "inventory", "decommissioning"] []),
        ("cluster", .ref .NBCluster), ("asset_tag", .bounded 50),
        ("primary_ip4", .objT), ("primary_ip6", .objT),
        ("tags", .tagListT), ("tenant", .ref .NBTenant)] }
  | .NBVM =>
    { tname := "virtual machine",
      api_path := "virtualization/virtual-machines", primary_key := "name",
      secondary_key := some "cluster", prune := true,
      data_model := [("name", .bounded 64),
        ("status", .choice ["offline", "active", "planned", "staged",
          "failed", "decommissioning"] []),
        ("cluster", .ref .NBCluster), ("role", .ref .NBDeviceRole),
        ("platform", .ref .NBPlatform), ("vcpus", .floatT),
        ("memory", .intT), ("disk", .intT), ("comments", .strT),
        ("primary_ip4", .objT), ("primary_ip6", .objT),
        ("tags", .tagListT), ("tenant", .ref .NBTenant)] }
  | .NBVMInterface =>
    { tname := "virtual machine interface",
      api_path := "virtualization/interfaces", primary_key := "name",
      secondary_key := some "virtual_machine",
      enforce_secondary_key := true, prune := true,
      data_model := [("name", .bounded 64),
        ("virtual_machine", .ref .NBVM), ("enabled", .boolT),
        ("mac_address", .strT), ("mtu", .intT),
        ("mode", .choice ["access", "tagged", "tagged-all"] []),
        ("untagged_vlan", .ref .NBVLAN), ("tagged_vlans", .vlanListT),
        ("description", .bounded 200), ("tags", .tagListT)] }
  | .NBInterface =>
    { tname := "interface", api_path := "dcim/interfaces",
      primary_key := "name", secondary_key := some "device",
      enforce_secondary_key := true, prune := true,
      data_model := [("name", .bounded 64), ("device", .ref .NBDevice),
        ("label", .bounded 64),
        ("type", .choice ["virtual", "100base-tx", "1000base-t",
          "10gbase-t", "25gbase-x-sfp28", "40gbase-x-qsfpp", "other"] []),
        ("enabled", .boolT), ("mac_address", .strT), ("mgmt_only", .boolT),
        ("mtu", .intT),
        ("mode", .choice ["access", "tagged", "tagged-all"] []),
        ("untagged_vlan", .ref .NBVLAN), ("tagged_vlans", .vlanListT),
        ("description", .bounded 200), ("connection_status", .boolT),
        ("tags", .tagListT)] }
  | .NBIPAddress =>
    { tname := "IP address", api_path := "ipam/ip-addresses",
      primary_key := "address", prune := true,
      data_model := [("address", .strT),
        ("assigned_object_type",
          .choice ["dcim.interface", "virtualization.vminterface"] []),
        ("assigned_object_id", .choice [] [.NBInterface, .NBVMInterface]),
        ("description", .bounded 200), ("dns_name", .bounded 255),
        ("tags", .tagListT), ("tenant", .ref .NBTenant),
        ("vrf", .ref .NBVRF)] }

/-- One entity instance: the per-object attributes set up by
`NetBoxObject.__init__` (`default_attributes`).  `src` is the opaque
source handle. -/
structure Entity where
  tag : TypeTag
  nb_id : Value := Value.int 0
  is_new : Bool := true
  data : List (String × Value) := []
  updated_items : List String := []
  unset_items : List String := []
  src : Option Nat := Option.none

/-- A fresh entity of type `t` as `__init__` leaves it before `update`
runs: empty `NBObjectList` values for every list-typed attribute. -/
def newEntity (t : TypeTag) : Entity :=
  { tag := t,
    data := (typeOf t).data_model.filterMap fun kd =>
      match kd.2 with
      | .tagListT => some (kd.1, Value.tagsV [])
      | .vlanListT => some (kd.1, Value.vlansV [])
      | _ => Option.none }

/-- The process-wide inventory registry.  The store grows append-only;
a handle is an index into it.  `memo` records get-or-create requests of
the running pass.  Modelled from the spec: the inventory implementation
is not part of the analysed file; §6 specifies `getOrCreate` (idempotent
within a pass), `findByData` (no creation) and `findByRemoteId`. -/
structure Inventory where
  store : List Entity := []
  memo : List (TypeTag × Value × Nat) := []

/-- Type of the entity behind a handle, if the handle is valid. -/
def storeTag (inv : Inventory) (h : Nat) : Option TypeTag :=
  (inv.store.get? h).map Entity.tag

/-- Modelled from the spec: `findByData` — natural-key lookup, no
creation.  A lookup dict carrying a non-null `id` matches on the remote
id; otherwise the value of the target type's primary key must match
(`pyEq`); a lookup without either is not found. -/
def get_by_data (inv : Inventory) (t : TypeTag) (d : Value) : Option Nat :=
  match d with
  | .vdict dd =>
    match alookup dd "id" with
    | some idv =>
      if isNotNone idv then
        (inv.store.findIdx? fun e => e.tag = t && pyEq e.nb_id idv)
      else Option.none
    | Option.none =>
      match alookup dd (typeOf t).primary_key with
      | some pkv =>
        if isNotNone pkv then
          (inv.store.findIdx? fun e =>
            e.tag = t &&
            pyEq (match alookup e.data (typeOf t).primary_key with
                  | some w => w
                  | Option.none => Value.none) pkv)
        else Option.none
      | Option.none => Option.none
  | _ => Option.none

/-- Modelled from the spec: `findByRemoteId`. -/
def get_by_id (inv : Inventory) (t : TypeTag) (idv : Value) : Option Nat :=
  inv.store.findIdx? fun e => e.tag = t && pyEq e.nb_id idv

/-- Memoised get-or-create requests of the running pass. -/
def memoLookup (inv : Inventory) (t : TypeTag) (d : Value) : Option Nat :=
  (inv.memo.find? fun e => e.1 = t && vbeq e.2.1 d).map fun e => e.2.2

/-- Raised Python exceptions (and fuel exhaustion of the model, which
stands for a recursion that the analysed pass never performs). -/
inductive Err where
  | attrError (s : String)
  | valueError (s : String)
  | typeError (s : String)
  | fatal (s : String)
  | fuelOut
deriving DecidableEq, Repr

/-- Logged events that the claims observe: `log.error` lines and the
informational attribute-change records. -/
inductive Ev where
  | errLog (s : String)
  | changeLog (s : String)
deriving DecidableEq, Repr

/-- `True` iff no `log.error` line was emitted. -/
def errFree (evs : List Ev) : Bool :=
  evs.all fun e => match e with | .errLog _ => false | .changeLog _ => true

/-- Number of informational change records in an event list. -/
def changeCount (evs : List Ev) : Nat :=
  (evs.filter fun e => match e with | .changeLog _ => true | _ => false).length

/-- Constructor rank, for the model's total order used by `sorted()`. -/
def valueRank : Value → Nat
  | .none => 0
  | .bool _ => 1
  | .int _ => 2
  | .float _ => 3
  | .str _ => 4
  | .obj _ => 5
  | .vlist _ => 6
  | .vdict _ => 7
  | .tagsV _ => 8
  | .vlansV _ => 9
  | .ipnet _ => 10

/-- Code-point lexicographic `≤` on character lists (Python string
comparison). -/
def charsLe : List Char → List Char → Bool
  | [], _ => true
  | _ :: _, [] => false
  | a :: as', b :: bs => if a = b then charsLe as' bs else decide (a < b)

/-- Python `<=` on strings. -/
def strLe (a b : String) : Bool := charsLe a.data b.data

/-- Total order on values backing `sorted()`.  On all-string lists (the
reachable case for tag and VLAN display names) it is Python's
lexicographic code-point order; mixed lists would raise in Python and
are ordered by constructor rank here. -/
def valueLe (a b : Value) : Bool :=
  if valueRank a = valueRank b then
    match a, b with
    | .str x, .str y => strLe x y
    | .int x, .int y => x ≤ y
    | .bool x, .bool y => !x || y
    | .float x, .float y => x ≤ y
    | .obj x, .obj y => x ≤ y
    | x, y => strLe (pyRepr x) (pyRepr y)
  else valueRank a < valueRank b

/-- Stable insertion into a `valueLe`-sorted list. -/
def insertV (v : Value) : List Value → List Value
  | [] => [v]
  | w :: rest => if valueLe v w then v :: w :: rest else w :: insertV v rest

/-- Python `sorted()` under the model's total order. -/
def sortValues (l : List Value) : List Value := l.foldr insertV []

/-- `get_display_name`, structurally bounded by `fuel` (each hop through
another entity or nested dict costs one unit; the analysed code only
performs finitely deep hops).  Dispatches the `NBVLAN` override; for
every other type runs the base implementation: the primary key's value,
suffixed with the secondary key's display when the schema enforces it or
the caller asks for it.  An entity-valued secondary key resolves to its
display name, a dict-valued one recursively through the same method.
The `NBVLAN` variant runs the base version first, then, when a site
value is present and a site name can be derived from it, renders
`"<vid> (<site name>)"`, otherwise keeps the base result. -/
def displayGo : Nat → List Entity → TypeTag → List (String × Value) →
    Bool → Except Err Value
  | 0, _, _, _, _ => .error .fuelOut
  | fuel + 1, store, t, dataset, inc =>
    let handleDisp : Nat → Except Err Value := fun h =>
      match store.get? h with
      | some ent => displayGo fuel store ent.tag ent.data false
      | Option.none => .error (.attrError "dangling handle")
    let base : Except Err Value :=
      let ty := typeOf t
      let my_name := (alookup dataset ty.primary_key).getD .none
      match ty.secondary_key with
      | some sk =>
        if isNotNone my_name && (ty.enforce_secondary_key || inc) then
          let skv := (alookup dataset sk).getD .none
          (match skv with
           | .obj h => handleDisp h
           | .vdict dd => displayGo fuel store t dd false
           | v => .ok v).map fun skv' =>
            .str (pyStr my_name ++ " (" ++ pyStr skv' ++ ")")
        else .ok my_name
      | Option.none => .ok my_name
    match t with
    | .NBVLAN =>
      base.bind fun my_name =>
        let this_site := (alookup dataset "site").getD .none
        if isNotNone this_site then
          let vlan_id := (alookup dataset "vid").getD .none
          (match this_site with
           | .obj h => (handleDisp h).map some
           | .vdict dd => .ok (alookup dd "name")
           | _ => .ok Option.none).map fun site_name =>
            match site_name with
            | some sn =>
              if isNotNone sn then
                .str (pyStr vlan_id ++ " (" ++ pyStr sn ++ ")")
              else my_name
            | Option.none => my_name
        else .ok my_name
    | _ => base

/-- The *base* `NetBoxObject.get_display_name` on an explicit data set
(no `NBVLAN` override), with the same fuel accounting as `displayGo`. -/
def base_get_display_name : Nat → List Entity → TypeTag →
    List (String × Value) → Bool → Except Err Value
  | 0, _, _, _, _ => .error .fuelOut
  | fuel + 1, store, t, dataset, inc =>
    let handleDisp : Nat → Except Err Value := fun h =>
      match store.get? h with
      | some ent => displayGo fuel store ent.tag ent.data false
      | Option.none => .error (.attrError "dangling handle")
    let ty := typeOf t
    let my_name := (alookup dataset ty.primary_key).getD .none
    match ty.secondary_key with
    | some sk =>
      if isNotNone my_name && (ty.enforce_secondary_key || inc) then
        let skv := (alookup dataset sk).getD .none
        (match skv with
         | .obj h => handleDisp h
         | .vdict dd => displayGo fuel store t dd false
         | v => .ok v).map fun skv' =>
          .str (pyStr my_name ++ " (" ++ pyStr skv' ++ ")")
      else .ok my_name
    | Option.none => .ok my_name

/-- Virtual dispatch of `get_display_name` (alias of `displayGo`). -/
def dispDisplay (fuel : Nat) (store : List Entity) (t : TypeTag)
    (dataset : List (String × Value)) (including_second_key : Bool) :
    Except Err Value :=
  displayGo fuel store t dataset including_second_key

/-- `handle.get_display_name()`: display of the entity behind a handle
(on its own data, without the optional secondary key). -/
def displayOfHandle (fuel : Nat) (store : List Entity) (h : Nat) :
    Except Err Value :=
  match store.get? h with
  | some ent => displayGo fuel store ent.tag ent.data false
  | Option.none => .error (.attrError "dangling handle")

/-- First-match lookup in a `data_model`. -/
def dmGet : List (String × DataType) → String → Option DataType
  | [], _ => Option.none
  | (k, v) :: rest, key => if k = key then some v else dmGet rest key

/-- Python `x in l` (membership by `==`). -/
def pyInList (v : Value) (l : List Value) : Bool := l.any fun w => pyEq v w

/-- The interface the object model consumes from the inventory
collaborator (spec §6): `getOrCreate(type, naturalKeyData, source)`.
Kept abstract so the spec-level contract (idempotent within a pass) can
be assumed where the claims assume it; `specAdd` below is the concrete
modelled implementation. -/
structure InvOps where
  add_update_object :
    Inventory → TypeTag → Value → Option Nat →
      Except Err (Inventory × Nat × List Ev)

/-- `value.source = source` stamping of a freshly obtained reference
(`update`, lines 330–331): only when the entity has no source yet. -/
def invSetSrc (inv : Inventory) (h : Nat) (src : Option Nat) : Inventory :=
  match inv.store.get? h with
  | some ent =>
    if ent.src = Option.none then
      { inv with store := inv.store.set h { ent with src := src } }
    else inv
  | Option.none => inv

/-- `NetBoxObject.get_tags`: the display names of the current tag
collection.  A collection member without `get_display_name` (a raw dict
hydrated from remote) raises `AttributeError`. -/
def get_tags (fuel : Nat) (store : List Entity) (e : Entity) :
    Except Err (List Value) :=
  match (alookup e.data "tags").getD (.vlist []) with
  | .tagsV hs => hs.mapM (displayOfHandle fuel store)
  | .vlansV hs => hs.mapM (displayOfHandle fuel store)
  | .vlist l => l.mapM fun v =>
      match v with
      | .obj h => displayOfHandle fuel store h
      | _ => .error (.attrError "no get_display_name on raw tag value")
  | _ => .error (.typeError "tags value not iterable")

/-- `compile_tags`' helper `extract_tags`: normalise one tag-like value
into a bare name; anything else is silently ignored. -/
def extractTag (fuel : Nat) (store : List Entity) (v : Value) :
    Except Err (Option Value) :=
  match v with
  | .obj h =>
    match store.get? h with
    | some ent =>
      if ent.tag = .NBTag then (displayOfHandle fuel store h).map some
      else .ok Option.none
    | Option.none => .ok Option.none
  | .str s => .ok (some (.str s))
  | .vdict dd =>
    .ok (match alookup dd "name" with
         | some nv => if isNotNone nv then some nv else Option.none
         | Option.none => Option.none)
  | _ => .ok Option.none

/-- The sanitised tag-name list of `compile_tags`: one value yields at
most one name, a list is flattened element-wise. -/
def sanitizeTags (fuel : Nat) (store : List Entity) (tags : Value) :
    Except Err (List Value) :=
  match tags with
  | .vlist l => (l.mapM (extractTag fuel store)).map List.reduceOption
  | v => (extractTag fuel store v).map Option.toList

/-- The current tag collection as Python sees it in
`grab(self, "data.tags", fallback=NBTagList())`: the member handles. -/
def currentTagHandles (e : Entity) : Except Err (List Nat) :=
  match (alookup e.data "tags").getD .none with
  | .none => .ok []
  | .tagsV hs => .ok hs
  | .vlansV hs => .ok hs
  | .vlist l =>
    match (l.mapM fun v =>
      match v with
      | .obj h => some h
      | _ => Option.none : Option (List Nat)) with
    | some hs => .ok hs
    | Option.none => .error (.attrError "raw tag collection member")
  | _ => .error (.typeError "tags value not a list")

/-- The per-name loop of `compile_tags`: get-or-create names to add,
look up (without creating) names to remove. -/
def compileTagsLoop (ops : InvOps) (inv : Inventory)
    (current_strs : List Value) (remove : Bool) :
    List Value → Except Err (Inventory × List Nat × List (Option Nat) × List Ev)
  | [] => .ok (inv, [], [], [])
  | n :: rest =>
    if !pyInList n current_strs && remove = false then
      (ops.add_update_object inv .NBTag (.vdict [("name", n)])
          Option.none).bind fun (inv1, h, evs1) =>
        (compileTagsLoop ops inv1 current_strs remove rest).map
          fun (inv2, nt, rt, evs2) => (inv2, h :: nt, rt, evs1 ++ evs2)
    else if pyInList n current_strs && remove = true then
      let r := get_by_data inv .NBTag (.vdict [("name", n)])
      (compileTagsLoop ops inv current_strs remove rest).map
        fun (inv2, nt, rt, evs2) => (inv2, nt, r :: rt, evs2)
    else
      compileTagsLoop ops inv current_strs remove rest

/-- `NetBoxObject.compile_tags`: set-semantics tag compilation.  Returns
`Option.none` where Python returns `None` (no tag attribute in the data
model or `None` input). -/
def compile_tags (ops : InvOps) (fuel : Nat) (inv : Inventory) (e : Entity)
    (tags : Value) (remove : Bool) :
    Except Err (Inventory × Option Value × List Ev) :=
  if !isNotNone tags ||
      !((typeOf e.tag).data_model.any fun kd => kd.2 = .tagListT) then
    .ok (inv, Option.none, [])
  else
    (sanitizeTags fuel inv.store tags).bind fun sanitized =>
      (get_tags fuel inv.store e).bind fun current_strs =>
        (compileTagsLoop ops inv current_strs remove sanitized).bind
          fun (inv1, new_tags, removed_tags, evs) =>
            (currentTagHandles e).map fun current_tags =>
              if new_tags.length > 0 then
                (inv1, some (.tagsV (new_tags ++ current_tags)), evs)
              else if removed_tags.length > 0 then
                (inv1, some (.tagsV (current_tags.filter
                  fun h => !(removed_tags.contains (some h)))), evs)
              else (inv1, some (.tagsV current_tags), evs)

/-- `NetBoxObject.update_tags` (and through it `add_tags` /
`remove_tags`): recompile the tag collection and record a change when
the display-name sets differ. -/
def update_tags (ops : InvOps) (fuel : Nat) (inv : Inventory) (e : Entity)
    (tags : Value) (remove : Bool) :
    Except Err (Inventory × Entity × List Ev) :=
  if !isNotNone tags ||
      !((typeOf e.tag).data_model.any fun kd => kd.2 = .tagListT) then
    .ok (inv, e, [])
  else
    (currentTagHandles e).bind fun current_tags =>
      (compile_tags ops fuel inv e tags remove).bind
        fun (inv1, new_value, evs) =>
          match new_value with
          | some (.tagsV new_tags) =>
            ((current_tags.mapM (displayOfHandle fuel inv1.store)).bind
              fun cur_ds =>
                (new_tags.mapM (displayOfHandle fuel inv1.store)).map
                  fun new_ds => (cur_ds, new_ds)).map
              fun (cur_ds, new_ds) =>
                if pyStr (.vlist (sortValues cur_ds)) ≠
                    pyStr (.vlist (sortValues new_ds)) then
                  (inv1,
                   { e with data := aset e.data "tags" (.tagsV new_tags),
                            updated_items := e.updated_items ++ ["tags"] },
                   evs ++ [.changeLog ("tags changed to " ++
                     pyStr (.vlist (sortValues new_ds)))])
                else (inv1, e, evs)
          | _ => .ok (inv1, e, evs)

/-- The element loop of `compile_vlans` (`acc` holds the handles already
in the new list, for the duplicate check). -/
def compileVlansLoop (ops : InvOps) (inv : Inventory) (e : Entity) :
    List Value → List Nat → Except Err (Inventory × List Nat × List Ev)
  | [], acc => .ok (inv, acc, [])
  | v :: rest, acc =>
    match v with
    | .obj h =>
      if storeTag inv h = some .NBVLAN then
        compileVlansLoop ops inv e rest (if acc.contains h then acc else acc ++ [h])
      else
        (compileVlansLoop ops inv e rest acc).map
          fun (inv1, hs, evs) =>
            (inv1, hs, .errLog "Unable to parse provided VLAN data" :: evs)
    | .vdict dd =>
      (ops.add_update_object inv .NBVLAN (.vdict dd) e.src).bind
        fun (inv1, h, evs1) =>
          (compileVlansLoop ops inv1 e rest
            (if acc.contains h then acc else acc ++ [h])).map
            fun (inv2, hs, evs2) => (inv2, hs, evs1 ++ evs2)
    | _ =>
      (compileVlansLoop ops inv e rest acc).map
        fun (inv1, hs, evs) =>
          (inv1, hs, .errLog "Unable to parse provided VLAN data" :: evs)

/-- `NetBoxObject.compile_vlans`: replace-semantics VLAN compilation.
Raises `ValueError` on a non-list input; keeps VLAN handles, turns dicts
into get-or-created VLANs inheriting the object's source, drops
unparsable elements with an error log, and drops duplicate handles. -/
def compile_vlans (ops : InvOps) (inv : Inventory) (e : Entity)
    (vlans : Value) : Except Err (Inventory × Option Value × List Ev) :=
  if !isNotNone vlans ||
      !((typeOf e.tag).data_model.any fun kd => kd.2 = .vlanListT) then
    .ok (inv, Option.none, [])
  else
    ((match vlans with
     | .vlist l => .ok l
     | .tagsV hs => .ok (hs.map Value.obj)
     | .vlansV hs => .ok (hs.map Value.obj)
     | _ => .error (.valueError "Value for vlans must be a list") :
       Except Err (List Value))).bind
      fun elems => (compileVlansLoop ops inv e elems []).map
        fun (inv1, hs, evs) => (inv1, some (.vlansV hs), evs)


/-- The `data_model_relation` table of `NBIPAddress`, string → type
direction. -/
def relTagOf : Value → Option TypeTag
  | .str s =>
    if s = "dcim.interface" then some .NBInterface
    else if s = "virtualization.vminterface" then some .NBVMInterface
    else Option.none
  | _ => Option.none

/-- The `data_model_relation` table of `NBIPAddress`, type → string
direction (`None` for any other type). -/
def relStrOf : Option TypeTag → Value
  | some .NBInterface => .str "dcim.interface"
  | some .NBVMInterface => .str "virtualization.vminterface"
  | _ => Value.none

/-- Member type of an `NBObjectList` subclass. -/
def memberType : DataType → Option TypeTag
  | .tagListT => some .NBTag
  | .vlanListT => some .NBVLAN
  | _ => Option.none

/-- The element pass of the `NBObjectList` branch of
`resolve_relations`: keep members of the right type, look the others up
by data (no creation), drop what is not found. -/
def resolveListItems (inv : Inventory) (mt : TypeTag) :
    List Value → List Nat
  | [] => []
  | v :: rest =>
    match v with
    | .obj h =>
      if storeTag inv h = some mt then h :: resolveListItems inv mt rest
      else
        match get_by_data inv mt (.obj h) with
        | some h' => h' :: resolveListItems inv mt rest
        | Option.none => resolveListItems inv mt rest
    | other =>
      match get_by_data inv mt other with
      | some h' => h' :: resolveListItems inv mt rest
      | Option.none => resolveListItems inv mt rest

/-- One key of `NetBoxObject.resolve_relations`: rewrite the stored
value to resolved handles, or log that the relation could not be
resolved (the error line renders the entity's display name, so a display
failure propagates as the raised exception it would be). -/
def resolveOne (fuel : Nat) (inv : Inventory) (e : Entity)
    (dat : List (String × Value)) (k : String) (dt : DataType) :
    Except Err (List (String × Value) × List Ev) :=
  let dv := (alookup dat k).getD .none
  if !isNotNone dv then .ok (dat, [])
  else
    let dt' := if strStarts k "primary_ip" then .ref .NBIPAddress else dt
    match dt' with
    | .ref rt =>
      (match dv with
       | .obj _ => .ok (some dv)
       | .int n => .ok ((get_by_data inv rt
           (.vdict [("id", .int n)])).map Value.obj)
       | .vdict dd => .ok ((get_by_data inv rt (.vdict dd)).map Value.obj)
       | _ => .ok Option.none : Except Err (Option Value)).bind
        fun resolved =>
          match resolved with
          | some rv => .ok (aset dat k rv, [])
          | Option.none =>
            (dispDisplay fuel inv.store e.tag dat false).map fun dn =>
              (dat, [.errLog ("Problems resolving relation '" ++ k ++
                "' for object '" ++ pyStr dn ++ "'")])
    | .tagListT =>
      (match dv with
       | .vlist l => .ok l
       | .tagsV hs => .ok (hs.map Value.obj)
       | .vlansV hs => .ok (hs.map Value.obj)
       | _ => .error (.typeError "not iterable") :
         Except Err (List Value)).map fun elems =>
        (aset dat k (.tagsV (resolveListItems inv .NBTag elems)), [])
    | .vlanListT =>
      (match dv with
       | .vlist l => .ok l
       | .tagsV hs => .ok (hs.map Value.obj)
       | .vlansV hs => .ok (hs.map Value.obj)
       | _ => .error (.typeError "not iterable") :
         Except Err (List Value)).map fun elems =>
        (aset dat k (.vlansV (resolveListItems inv .NBVLAN elems)), [])
    | _ => .ok (dat, [])

/-- Fold of `resolveOne` over the data model. -/
def resolveItems (fuel : Nat) (inv : Inventory) (e : Entity)
    (dat : List (String × Value)) :
    List (String × DataType) → Except Err (List (String × Value) × List Ev)
  | [] => .ok (dat, [])
  | (k, dt) :: rest =>
    (resolveOne fuel inv e dat k dt).bind fun (dat1, evs1) =>
      (resolveItems fuel inv e dat1 rest).map fun (dat2, evs2) =>
        (dat2, evs1 ++ evs2)

/-- `NetBoxObject.resolve_relations`. -/
def resolve_relations (fuel : Nat) (inv : Inventory) (e : Entity) :
    Except Err (Entity × List Ev) :=
  (resolveItems fuel inv e e.data (typeOf e.tag).data_model).map
    fun (dat, evs) => ({ e with data := dat }, evs)

/-- `NBIPAddress.resolve_relations`: validate the polymorphic
discriminator (`do_error_exit`, i.e. a fatal process exit, on an unknown
non-null value), resolve an integer `assigned_object_id` through
`get_by_id` with the type selected by the discriminator, then run the
base resolution. -/
def ip_resolve_relations (fuel : Nat) (inv : Inventory) (e : Entity) :
    Except Err (Entity × List Ev) :=
  let o_id := (alookup e.data "assigned_object_id").getD .none
  let o_type := (alookup e.data "assigned_object_type").getD .none
  if isNotNone o_type &&
      !(pyInList o_type
        [.str "dcim.interface", .str "virtualization.vminterface"]) then
    (dispDisplay fuel inv.store e.tag e.data false).bind fun dn =>
      .error (.fatal ("Error while resolving relations for " ++ pyStr dn))
  else
    let e1 :=
      match o_id with
      | .int n =>
        let newv : Value :=
          match relTagOf o_type with
          | some rt =>
            (match get_by_id inv rt (.int n) with
             | some h => Value.obj h
             | Option.none => Value.none)
          | Option.none => Value.none
        { e with data := aset e.data "assigned_object_id" newv }
      | _ => e
    resolve_relations fuel inv e1

/-- Virtual dispatch of `resolve_relations` (`NBIPAddress` overrides). -/
def disp_resolve (fuel : Nat) (inv : Inventory) (e : Entity) :
    Except Err (Entity × List Ev) :=
  match e.tag with
  | .NBIPAddress => ip_resolve_relations fuel inv e
  | _ => resolve_relations fuel inv e

/-- One key of the parse/validate loop of `NetBoxObject.update`
(lines 258–334).  Returns the possibly grown inventory, the normalised
value to be applied (`Option.none` when the key is skipped) and the
logged events.  The branch structure follows the source: the
`primary_ip*` override of the declared type, the bounded-string
truncation (always applied first) with the slug formatter on the
designated `slug` attribute, the choice-list membership test, the
primitive type checks, the tag/VLAN compilers, and get-or-create plus
source stamping for reference values. -/
def parseOne (ops : InvOps) (fuel : Nat) (inv : Inventory) (e : Entity)
    (src : Option Nat) (k : String) (v : Value) :
    Except Err (Inventory × Option Value × List Ev) :=
  match dmGet (typeOf e.tag).data_model k with
  | Option.none =>
    .ok (inv, Option.none,
      [.errLog ("Found undefined data model key '" ++ k ++ "'")])
  | some dt =>
    if !isNotNone v then .ok (inv, Option.none, [])
    else
      let dvt := if strStarts k "primary_ip" then DataType.ref .NBIPAddress
                 else dt
      match dvt with
      | .bounded n =>
        (match v with
         | .str s =>
           let s1 := truncStr n s
           if k = "slug" then
             (match format_slug s1 n with
              | some r => .ok (inv, some (.str r), [])
              | Option.none =>
                .error (.attrError "Argument 'text' can't be None or empty!"))
           else .ok (inv, some (.str (truncStr n s1)), [])
         | _ =>
           .ok (inv, Option.none,
             [.errLog ("Invalid data type for '" ++ k ++ "' (must be str)")]))
      | .choice lits refs =>
        (match v with
         | .obj h =>
           (match storeTag inv h with
            | some tt =>
              if refs.contains tt then .ok (inv, some v, [])
              else .ok (inv, Option.none,
                [.errLog ("Invalid data type for '" ++ k ++ "'")])
            | Option.none =>
              .ok (inv, Option.none,
                [.errLog ("Invalid data type for '" ++ k ++ "'")]))
         | _ =>
           if lits.any fun s => pyEq v (.str s) then .ok (inv, some v, [])
           else .ok (inv, Option.none,
             [.errLog ("Invalid data type for '" ++ k ++ "'")]))
      | .boolT =>
        (match v with
         | .bool _ => .ok (inv, some v, [])
         | _ => .ok (inv, Option.none,
             [.errLog ("Invalid data type for '" ++ k ++ "' (must be bool)")]))
      | .strT =>
        (match v with
         | .str _ => .ok (inv, some v, [])
         | _ => .ok (inv, Option.none,
             [.errLog ("Invalid data type for '" ++ k ++ "' (must be str)")]))
      | .intT =>
        (match v with
         | .int _ => .ok (inv, some v, [])
         | .bool _ => .ok (inv, some v, [])
         | _ => .ok (inv, Option.none,
             [.errLog ("Invalid data type for '" ++ k ++ "' (must be int)")]))
      | .floatT => .ok (inv, some v, [])
      | .objT => .ok (inv, some v, [])
      | .tagListT =>
        (compile_tags ops fuel inv e v false).map fun (inv1, ov, evs) =>
          (inv1, some (ov.getD Value.none), evs)
      | .vlanListT =>
        (compile_vlans ops inv e v).map fun (inv1, ov, evs) =>
          (inv1, some (ov.getD Value.none), evs)
      | .ref rt =>
        (match v with
         | .obj _ => .ok (inv, some v, [])
         | _ =>
           (ops.add_update_object inv rt v src).map fun (inv1, h, evs) =>
             (invSetSrc inv1 h src, some (.obj h), evs))

/-- The parse loop over the raw input items (Python dict iteration
order). -/
def parseItems (ops : InvOps) (fuel : Nat) (inv : Inventory) (e : Entity)
    (src : Option Nat) :
    List (String × Value) →
      Except Err (Inventory × List (String × Value) × List Ev)
  | [] => .ok (inv, [], [])
  | (k, v) :: rest =>
    (parseOne ops fuel inv e src k v).bind fun (inv1, ov, evs1) =>
      (parseItems ops fuel inv1 e src rest).map fun (inv2, pd, evs2) =>
        (inv2,
         (match ov with
          | some pv => (k, pv) :: pd
          | Option.none => pd),
         evs1 ++ evs2)

/-- The slug-derivation step of `update` (lines 336–343): when the data
model has a `slug`, none was supplied, and the primary key was, derive
the slug from the primary key's parsed value. -/
def addSlug (t : TypeTag) (parsed : List (String × Value)) :
    Except Err (List (String × Value)) :=
  let ty := typeOf t
  match dmGet ty.data_model "slug" with
  | Option.none => .ok parsed
  | some slugdt =>
    if !isNotNone ((alookup parsed "slug").getD .none) &&
        isNotNone ((alookup parsed ty.primary_key).getD .none) then
      match slugdt with
      | .bounded n =>
        (match (alookup parsed ty.primary_key).getD .none with
         | .str s =>
           (match format_slug s n with
            | some r => .ok (aset parsed "slug" (.str r))
            | Option.none =>
              .error (.attrError "Argument 'text' can't be None or empty!"))
         | _ => .error (.typeError "object of this type has no len()"))
      | _ => .error (.typeError "slice indices must be integers")
    else .ok parsed

/-- The display-name string of an entity- or collection-valued item, if
it is one (`str(value.get_display_name())`; collection display names are
the sorted member names). -/
def displayStrOf (fuel : Nat) (store : List Entity) (v : Value) :
    Except Err (Option String) :=
  match v with
  | .obj h => (displayOfHandle fuel store h).map fun d => some (pyStr d)
  | .tagsV hs =>
    (hs.mapM (displayOfHandle fuel store)).map fun ds =>
      some (pyStr (.vlist (sortValues ds)))
  | .vlansV hs =>
    (hs.mapM (displayOfHandle fuel store)).map fun ds =>
      some (pyStr (.vlist (sortValues ds)))
  | _ => .ok Option.none

/-- `current_value_str` of the apply loop (lines 353–365). -/
def currentValueStr (fuel : Nat) (inv : Inventory) (t : TypeTag)
    (k : String) (current : Value) : Except Err String :=
  (displayStrOf fuel inv.store current).map fun ds =>
    match ds with
    | some s => s
    | Option.none =>
      match dmGet (typeOf t).data_model k, current with
      | some (.choice _ _), .vdict dd =>
        pyStr ((alookup dd "value").getD .none)
      | _, .vdict dd =>
        if strStarts k "primary_ip" then
          pyStr ((alookup dd "address").getD .none)
        else stripCR (pyStr current)
      | _, _ => stripCR (pyStr current)

/-- `new_value_str` of the apply loop (lines 367–371). -/
def newValueStr (fuel : Nat) (inv : Inventory) (newv : Value) :
    Except Err String :=
  (displayStrOf fuel inv.store newv).map fun ds =>
    match ds with
    | some s => s
    | Option.none => stripCR (pyStr newv)

/-- The apply loop of `update` (lines 346–393): type-aware equivalence
(`==`, then the numeric-tolerance check, then the rendered-string
comparison), storing changed values, appending to `updated_items`,
emitting a change record unless the entity is brand new, and re-running
relation resolution after every stored change. -/
def applyItems (fuel : Nat) (inv : Inventory) (dispName : String) :
    Entity → List (String × Value) → Except Err (Entity × List Ev)
  | e, [] => .ok (e, [])
  | e, (k, newv) :: rest =>
    let current := (alookup e.data k).getD .none
    if pyEq current newv then applyItems fuel inv dispName e rest
    else
      (currentValueStr fuel inv e.tag k current).bind fun cur_str =>
        (newValueStr fuel inv newv).bind fun new_str =>
          let dmv := dmGet (typeOf e.tag).data_model k
          (if isNotNone current &&
              (dmv = some .intT || dmv = some .floatT) &&
              pyNumeric newv then
             (match pyFloatQ current with
              | some qc => .ok (some qc == pyFloatQ newv)
              | Option.none => .error (.typeError "float() argument") :
                Except Err Bool)
           else .ok false).bind fun fskip =>
            if fskip then applyItems fuel inv dispName e rest
            else if cur_str = new_str then applyItems fuel inv dispName e rest
            else
              let e1 := { e with data := aset e.data k newv,
                                 updated_items := e.updated_items ++ [k] }
              let chev : List Ev :=
                if e.is_new = false then
                  [.changeLog (dispName ++ " attribute '" ++ k ++
                    "' changed from '" ++ cur_str ++ "' to '" ++
                    (nlToSpace new_str) ++ "'")]
                else []
              (disp_resolve fuel inv e1).bind fun (e2, evs2) =>
                (applyItems fuel inv dispName e2 rest).map fun (e3, evs3) =>
                  (e3, chev ++ evs2 ++ evs3)

/-- `NetBoxObject.update` (lines 212–393): remote-id capture, the
verbatim remote path, source stamping, parse/validate, slug derivation
and the apply loop. -/
def base_update (ops : InvOps) (fuel : Nat) (inv : Inventory) (e : Entity)
    (dat : Option (List (String × Value))) (read_from_netbox : Bool)
    (source : Option Nat) : Except Err (Inventory × Entity × List Ev) :=
  match dat with
  | Option.none => .ok (inv, e, [])
  | some dd =>
    let e1 :=
      match alookup dd "id" with
      | some idv => if isNotNone idv then { e with nb_id := idv } else e
      | Option.none => e
    if read_from_netbox then
      .ok (inv, { e1 with is_new := false, data := dd,
                          updated_items := [], unset_items := [] }, [])
    else
      let e2 := match source with
                | some s => { e1 with src := some s }
                | Option.none => e1
      (dispDisplay fuel inv.store e2.tag dd false).bind fun dn1 =>
        (if isNotNone dn1 then .ok dn1
         else dispDisplay fuel inv.store e2.tag e2.data false).bind fun dnv =>
          let dispName := pyStr dnv
          (parseItems ops fuel inv e2 source dd).bind
            fun (inv3, parsed, evs1) =>
              (addSlug e2.tag parsed).bind fun parsed2 =>
                (applyItems fuel inv3 dispName e2 parsed2).map
                  fun (e3, evs2) => (inv3, e3, evs1 ++ evs2)

/-- `NBVLAN.update`: a VLAN never changes its already-set name on a
non-remote update (the supplied name is overwritten with the stored
one). -/
def vlan_update (ops : InvOps) (fuel : Nat) (inv : Inventory) (e : Entity)
    (dat : Option (List (String × Value))) (read_from_netbox : Bool)
    (source : Option Nat) : Except Err (Inventory × Entity × List Ev) :=
  if read_from_netbox = false &&
      isNotNone ((alookup e.data "name").getD .none) then
    match dat with
    | some dd =>
      base_update ops fuel inv e
        (some (aset dd "name" ((alookup e.data "name").getD .none)))
        read_from_netbox source
    | Option.none =>
      .error (.typeError "'NoneType' object does not support item assignment")
  else base_update ops fuel inv e dat read_from_netbox source

/-- Stand-in for `ipaddress.ip_network` parsing (stdlib, outside the
analysed file): accepts strings that look like a network literal.  The
claims never depend on which strings parse. -/
def validNetStr (s : String) : Bool :=
  s.data.any fun c => c = '/' || c = '.' || c = ':'

/-- `NBPrefix.update` (type tag `NBPfx`): parse the prefix into an
ip-network (abandoning the whole update with an error log on parse
failure), run the base update, then raise `ValueError` on any non-remote
update ("Adding IP prefix by this program is currently not
implemented"). -/
def pfx_update (ops : InvOps) (fuel : Nat) (inv : Inventory) (e : Entity)
    (dat : Option (List (String × Value))) (read_from_netbox : Bool)
    (source : Option Nat) : Except Err (Inventory × Entity × List Ev) :=
  match dat with
  | Option.none => .error (.attrError "'NoneType' object has no attribute 'get'")
  | some dd =>
    let pv := (alookup dd "prefix").getD .none
    let parsed? : Option (List (String × Value)) :=
      match pv with
      | .none => some dd
      | .ipnet _ => some dd
      | .str s => if validNetStr s then some (aset dd "prefix" (.ipnet s))
                  else Option.none
      | _ => Option.none
    match parsed? with
    | Option.none => .ok (inv, e, [.errLog "Failed to parse IP prefix"])
    | some dd' =>
      (base_update ops fuel inv e (some dd') read_from_netbox source).bind
        fun (inv1, e1, evs) =>
          if read_from_netbox = false then
            .error (.valueError
              "Adding IP prefix by this program is currently not implemented.")
          else .ok (inv1, e1, evs)

/-- `NBIPAddress.update`: a non-remote update with an assigned object
first turns raw assigned-object data into a get-or-created entity of the
discriminator-selected type (or, for an already-live handle, rewrites
the discriminator from the handle's type), runs the base update, and
marks `assigned_object_type` as updated whenever `assigned_object_id`
was. -/
def ip_update (ops : InvOps) (fuel : Nat) (inv : Inventory) (e : Entity)
    (dat : Option (List (String × Value))) (read_from_netbox : Bool)
    (source : Option Nat) : Except Err (Inventory × Entity × List Ev) :=
  match dat with
  | Option.none => .error (.attrError "'NoneType' object has no attribute 'get'")
  | some dd =>
    let ot := (alookup dd "assigned_object_type").getD .none
    let ao := (alookup dd "assigned_object_id").getD .none
    (if read_from_netbox = false && isNotNone ao then
       match ao with
       | .obj h =>
         .ok (inv, aset dd "assigned_object_type" (relStrOf (storeTag inv h)), [])
       | _ =>
         match relTagOf ot with
         | some rt =>
           (ops.add_update_object inv rt ao Option.none).map fun r =>
             (r.1, aset dd "assigned_object_id" (.obj r.2.1), r.2.2)
         | Option.none => .error (.typeError "'NoneType' object is not callable")
     else .ok (inv, dd, []) :
       Except Err (Inventory × List (String × Value) × List Ev)).bind
      fun (inv1, dd', evs0) =>
        (base_update ops fuel inv1 e (some dd') read_from_netbox source).map
          fun (inv2, e2, evs) =>
            let e3 :=
              if e2.updated_items.contains "assigned_object_id" then
                { e2 with updated_items :=
                    e2.updated_items ++ ["assigned_object_type"] }
              else e2
            (inv2, e3, evs0 ++ evs)

/-- Virtual dispatch of `update`: `NBVLAN`, `NBPrefix` (`NBPfx`) and
`NBIPAddress` override it. -/
def disp_update (ops : InvOps) (fuel : Nat) (inv : Inventory) (e : Entity)
    (dat : Option (List (String × Value))) (read_from_netbox : Bool)
    (source : Option Nat) : Except Err (Inventory × Entity × List Ev) :=
  match e.tag with
  | .NBVLAN => vlan_update ops fuel inv e dat read_from_netbox source
  | .NBPfx => pfx_update ops fuel inv e dat read_from_netbox source
  | .NBIPAddress => ip_update ops fuel inv e dat read_from_netbox source
  | _ => base_update ops fuel inv e dat read_from_netbox source

/-- Modelled from the spec: the inventory's `getOrCreate`
(`add_update_object`), which is repository code outside the analysed
file.  §6: "getOrCreate(type, naturalKeyData, source) → Entity —
idempotent within a pass"; §5: "a second request for the same natural
key during the same pass returns the same handle, never creates twice".
The model memoises requests of the pass, falls back to natural-key
lookup (`findByData`), and otherwise creates the entity the way
`NetBoxObject.__init__` does — by running the (dispatched) `update` on a
fresh instance — then appends it to the store.  `fuel` bounds the
creation recursion depth. -/
def specAdd : Nat → Inventory → TypeTag → Value → Option Nat →
    Except Err (Inventory × Nat × List Ev)
  | 0, _, _, _, _ => .error .fuelOut
  | n + 1, inv, t, d, src =>
    match memoLookup inv t d with
    | some h => .ok (inv, h, [])
    | Option.none =>
      match get_by_data inv t d with
      | some h => .ok ({ inv with memo := inv.memo ++ [(t, d, h)] }, h, [])
      | Option.none =>
        match d with
        | .vdict dd =>
          (disp_update { add_update_object := specAdd n } n inv (newEntity t)
              (some dd) false src).map fun (inv1, e1, evs) =>
            let h := inv1.store.length
            ({ store := inv1.store ++ [e1],
               memo := inv1.memo ++ [(t, d, h)] }, h, evs)
        | _ => .error (.attrError "Argument 'data' needs to be a dict!")

/-- The modelled inventory as an `InvOps`. -/
def specOps (n : Nat) : InvOps := { add_update_object := specAdd n }

/-- An inventory whose get-or-create always fails; trivially satisfies
the spec contract (no request ever succeeds). -/
def failOps : InvOps := { add_update_object := fun _ _ _ _ => .error .fuelOut }

/-- `NetBoxObject.get_nb_reference`: `None` while the object has no
NetBox id (`nb_id == 0`), the id otherwise. -/
def get_nb_reference (e : Entity) : Option Value :=
  if pyEq e.nb_id (.int 0) then Option.none else some e.nb_id

mutual

/-- Well-formed values: every dict (at any depth) has distinct keys, as
Python dicts do by construction. -/
def wfValue : Value → Bool
  | .vlist l => wfValueList l
  | .vdict d => decide ((d.map Prod.fst).Nodup) && wfValueDict d
  | _ => true

/-- All members well-formed. -/
def wfValueList : List Value → Bool
  | [] => true
  | v :: rest => wfValue v && wfValueList rest

/-- All dict values well-formed. -/
def wfValueDict : List (String × Value) → Bool
  | [] => true
  | (_, v) :: rest => wfValue v && wfValueDict rest

end

/-- Two entity states that agree on everything the object model reads
through a handle (the opaque `source` stamp may differ). -/
def entitySim (a b : Entity) : Prop :=
  a.tag = b.tag ∧ a.nb_id = b.nb_id ∧ a.is_new = b.is_new ∧
  a.data = b.data ∧ a.updated_items = b.updated_items ∧
  a.unset_items = b.unset_items

/-- Inventory evolution within one pass: existing handles keep their
entity (up to the source stamp) and the get-or-create memo only grows. -/
def InvExtends (a b : Inventory) : Prop :=
  (∀ i ea, a.store.get? i = some ea →
    ∃ eb, b.store.get? i = some eb ∧ entitySim ea eb) ∧
  (∀ j m, a.memo.get? j = some m → b.memo.get? j = some m)

/-- The spec contract of the inventory collaborator (§5/§6): a
successful `getOrCreate` only extends the inventory, returns a handle of
the requested type, and is idempotent within the pass — repeating the
same request against any later inventory state returns the same handle
without growing the store or logging anything. -/
def OpsLawful (ops : InvOps) : Prop :=
  ∀ inv t d src inv' h evs,
    ops.add_update_object inv t d src = .ok (inv', h, evs) →
    InvExtends inv inv' ∧ storeTag inv' h = some t ∧
    ∀ inv'' src', InvExtends inv' inv'' →
      ops.add_update_object inv'' t d src' = .ok (inv'', h, [])

/-- Concrete C4 scenario fixture: inventory after the first VLAN update
(two freshly created VLANs, vid 10 and vid 20). -/
def c4Inv1 : Inventory :=
  { store := [{ tag := .NBVLAN, data := [("tags", .tagsV []), ("vid", .int 10)],
                updated_items := ["vid"] },
              { tag := .NBVLAN, data := [("tags", .tagsV []), ("vid", .int 20)],
                updated_items := ["vid"] }],
    memo := [(.NBVLAN, .vdict [("vid", .int 10)], 0),
             (.NBVLAN, .vdict [("vid", .int 20)], 1)] }

/-- Concrete C4 scenario fixture: the interface entity after the first
VLAN update (members vid 10 and vid 20). -/
def c4E1 : Entity :=
  { tag := .NBVMInterface,
    data := [("tagged_vlans", .vlansV [0, 1]), ("tags", .tagsV [])],
    updated_items := ["tagged_vlans"] }

/-- Concrete C4 scenario fixture: the interface entity after the second
VLAN update (single member vid 20 — no union with the prior list). -/
def c4E2 : Entity :=
  { tag := .NBVMInterface,
    data := [("tagged_vlans", .vlansV [1]), ("tags", .tagsV [])],
    updated_items := ["tagged_vlans", "tagged_vlans"] }

/-- Concrete C5 fixture: an inventory holding one tag named "x". -/
def c5Inv : Inventory :=
  { store := [{ tag := .NBTag,
                data := [("name", .str "x"), ("slug", .str "x")] }] }

/-- Concrete C5 fixture: an interface currently carrying tag "x". -/
def c5Ent : Entity := { tag := .NBVMInterface, data := [("tags", .tagsV [0])] }

/-- Concrete C5 fixture: the inventory after get-or-creating tag "y". -/
def c5InvA : Inventory :=
  { store := [{ tag := .NBTag,
                data := [("name", .str "x"), ("slug", .str "x")] },
              { tag := .NBTag,
                data := [("name", .str "y"), ("slug", .str "y")],
                updated_items := ["name", "slug"] }],
    memo := [(.NBTag, .vdict [("name", .str "y")], 1)] }

/-- Data-model kinds whose parsing touches neither the inventory nor the
get-or-create collaborator: the plain value types and pure choice lists
(lines 269–313 of `update`). -/
def primDT : DataType → Bool
  | .ref _ => false
  | .tagListT => false
  | .vlanListT => false
  | _ => true

/-- Primitive runtime values (no handles, no collections, no dicts). -/
def primVal : Value → Bool
  | .none => true
  | .str _ => true
  | .int _ => true
  | .bool _ => true
  | .float _ => true
  | _ => false

/-- An entity whose relation-valued attributes are unset (or empty
collections): on such an entity `resolve_relations` finds nothing to
substitute. -/
def relationFree (e : Entity) : Prop :=
  ∀ p ∈ (typeOf e.tag).data_model,
    (strStarts p.1 "primary_ip" = true →
      (alookup e.data p.1).getD Value.none = Value.none) ∧
    (∀ rt, p.2 = .ref rt →
      (alookup e.data p.1).getD Value.none = Value.none) ∧
    (p.2 = .tagListT →
      (alookup e.data p.1).getD Value.none = Value.none ∨
        alookup e.data p.1 = some (.tagsV [])) ∧
    (p.2 = .vlanListT →
      (alookup e.data p.1).getD Value.none = Value.none ∨
        alookup e.data p.1 = some (.vlansV []))

/-- A raw item the parse loop handles purely: a known key of primitive
kind, not subject to the `primary_ip` override, carrying a primitive
value. -/
def primItem (t : TypeTag) (p : String × Value) : Prop :=
  ∃ dt, dmGet (typeOf t).data_model p.1 = some dt ∧ primDT dt = true ∧
    strStarts p.1 "primary_ip" = false ∧ primVal p.2 = true

/-- Concrete C1 fixture: the inventory after the first update of the
counterexample scenario — one tag whose 101-character requested name was
truncated to 100 characters on creation, memoised under the original
101-character natural key. -/
def c1Inv1 : Inventory :=
  { store := [{ tag := .NBTag,
                data := [("name", .str (String.mk (List.replicate 100 'a'))),
                         ("slug", .str (String.mk (List.replicate 100 'a')))],
                updated_items := ["name", "slug"] }],
    memo := [(.NBTag,
              .vdict [("name", .str (String.mk (List.replicate 101 'a')))],
              0)] }

/-- Concrete C1 fixture: the tenant after the first update of the
counterexample scenario. -/
def c1E1 : Entity :=
  { tag := .NBTenant,
    data := [("tags", .tagsV [0]), ("name", .str "t"), ("slug", .str "t")],
    updated_items := ["name", "tags", "slug"] }

/-! ## Theorems -/

theorem slug_chars_fixed : ∀ c ∈ permittedChars, sepRepl c = c ∧ Char.toLower c = c := by
  decide

theorem string_ne_empty_data {x : String} (hx : x ≠ "") : x.data.length ≠ 0 := by
  intro h
  apply hx
  cases x with
  | mk l => cases l with
    | nil => rfl
    | cons a t => simp at h

theorem format_slug_spec (x : String) (n : Nat) (hx : x ≠ "") :
    ∃ s : String, format_slug x n = some s ∧ s.length ≤ n ∧
      (∀ c ∈ s.data, c ∈ permittedChars) ∧
      (s ≠ "" → format_slug s n = some s) := by
  have hxd := string_ne_empty_data hx
  set l := (((x.data.map sepRepl).map Char.toLower).filter
      (· ∈ permittedChars)).take n with hl
  have hall : ∀ c ∈ l, c ∈ permittedChars := by
    intro c hc
    have hc' := List.take_subset n _ hc
    exact of_decide_eq_true (List.mem_filter.mp hc').2
  have hdata : (String.mk l).data = l := rfl
  refine ⟨String.mk l, ?_, ?_, ?_, ?_⟩
  · simp only [format_slug, if_neg hxd, hl]
  · show l.length ≤ n
    rw [hl]
    simpa using Nat.min_le_left _ _
  · intro c hc
    exact hall c (hdata ▸ hc)
  · intro hs
    have hne := string_ne_empty_data hs
    simp only [format_slug, if_neg hne]
    have h1 : l.map sepRepl = l := by
      have := List.map_congr_left (l := l)
        (fun a ha => (slug_chars_fixed a (hall a ha)).1)
      simpa using this
    have h2 : l.map Char.toLower = l := by
      have := List.map_congr_left (l := l)
        (fun a ha => (slug_chars_fixed a (hall a ha)).2)
      simpa using this
    have h3 : l.filter (· ∈ permittedChars) = l :=
      List.filter_eq_self.mpr fun a ha => decide_eq_true (hall a ha)
    have h4 : l.take n = l := by
      apply List.take_of_length_le
      rw [hl]
      simpa using Nat.min_le_left _ _
    rw [h1, h2, h3, h4]

/-- C2 (counterexample): the claimed unconditional idempotence law
`format_slug(format_slug(x, n), n) == format_slug(x, n)` fails for the
non-empty input `"!"`: the first application yields the empty slug `""`,
on which `format_slug` raises (`Option.none`) instead of returning `""`
again. -/
theorem C2_counterexample :
    format_slug "!" 50 = some "" ∧ format_slug "" 50 = Option.none ∧
    (format_slug "!" 50).bind (fun s => format_slug s 50) ≠
      format_slug "!" 50 := by
  refine ⟨by decide, by decide, by decide⟩

/-- C2 (amended): for every non-empty `x` and maximum length `n`,
`format_slug x n` succeeds with a string of length at most `n`
containing only `[a-z0-9_-]`, and it is idempotent whenever its result
is itself non-empty (re-applying `format_slug` to an empty result raises
instead). -/
theorem C2_format_slug_law (x : String) (n : Nat) (hx : x ≠ "") :
    ∃ s : String, format_slug x n = some s ∧ s.length ≤ n ∧
      (∀ c ∈ s.data, c ∈ permittedChars) ∧
      (s ≠ "" → format_slug s n = some s) :=
  format_slug_spec x n hx

/-- Witness for `C2_format_slug_law` at `x = "Hello, World.txt"`,
`n = 50`. -/
theorem C2_format_slug_law_witness :
    ("Hello, World.txt" : String) ≠ "" ∧
    ∃ s : String, format_slug "Hello, World.txt" 50 = some s ∧
      s.length ≤ 50 ∧ (∀ c ∈ s.data, c ∈ permittedChars) ∧
      (s ≠ "" → format_slug s 50 = some s) :=
  ⟨by decide, C2_format_slug_law "Hello, World.txt" 50 (by decide)⟩

set_option maxHeartbeats 2000000 in
/-- C3 (counterexample): the normalized slug value is *not*
`format_slug(v, n)`.  For `v = "!" ++ 50·'a'` on the tenant schema
(`slug` bounded to 50), `update`'s parse step first truncates to 50
characters (keeping the `"!"` and only 49 `'a'`s) and then formats,
storing 49 `'a'`s — while the slug formatter applied to `v` itself
yields 50 `'a'`s. -/
theorem C3_counterexample :
    parseOne failOps 0 {} (newEntity .NBTenant) Option.none "slug"
      (.str (String.mk ('!' :: List.replicate 50 'a')))
      = .ok ({}, some (.str (String.mk (List.replicate 49 'a'))), []) ∧
    format_slug (String.mk ('!' :: List.replicate 50 'a')) 50
      = some (String.mk (List.replicate 50 'a')) ∧
    String.mk (List.replicate 49 'a') ≠ String.mk (List.replicate 50 'a') :=
  ⟨rfl, rfl, by decide⟩

/-- C3 (amended): for an update with `fromRemote = false` that assigns a
string `v` to the attribute `"slug"` declared `BoundedString(n)`, the
normalized value is the slug formatter applied to the *truncation* of
`v` to `n` characters (truncation happens first, then the formatter —
not the formatter in place of truncation). -/
theorem C3_slug_normalisation (ops : InvOps) (fuel : Nat) (inv : Inventory)
    (e : Entity) (src : Option Nat) (n : Nat) (v r : String)
    (hdm : dmGet (typeOf e.tag).data_model "slug" = some (.bounded n))
    (hfs : format_slug (truncStr n v) n = some r) :
    parseOne ops fuel inv e src "slug" (.str v) = .ok (inv, some (.str r), []) := by
  have hsw : strStarts "slug" "primary_ip" = false := by decide
  unfold parseOne
  rw [hdm]
  simp only [isNotNone, Bool.not_true, Bool.false_eq_true, if_false, hsw,
    if_true, hfs]

/-- Witness for `C3_slug_normalisation` on the tag schema with
`v = "x"`. -/
theorem C3_slug_normalisation_witness :
    dmGet (typeOf (newEntity .NBTag).tag).data_model "slug" =
      some (.bounded 100) ∧
    format_slug (truncStr 100 "x") 100 = some "x" ∧
    parseOne failOps 0 {} (newEntity .NBTag) Option.none "slug" (.str "x") =
      .ok ({}, some (.str "x"), []) :=
  ⟨rfl, rfl,
    C3_slug_normalisation failOps 0 {} (newEntity .NBTag) Option.none 100
      "x" "x" rfl rfl⟩

theorem except_bind_ok {α β ε : Type} {x : Except ε α} {f : α → Except ε β}
    {b : β} : x.bind f = .ok b ↔ ∃ a, x = .ok a ∧ f a = .ok b := by
  cases x <;> simp [Except.bind]

theorem except_map_ok {α β ε : Type} {x : Except ε α} {f : α → β} {b : β} :
    x.map f = .ok b ↔ ∃ a, x = .ok a ∧ f a = b := by
  cases x <;> simp [Except.map]

theorem resolve_relations_fields {fuel inv e e' evs}
    (h : resolve_relations fuel inv e = .ok (e', evs)) :
    e'.nb_id = e.nb_id ∧ e'.is_new = e.is_new ∧
    e'.updated_items = e.updated_items ∧ e'.tag = e.tag ∧ e'.src = e.src := by
  unfold resolve_relations at h
  rw [except_map_ok] at h
  obtain ⟨⟨dat, evs1⟩, _, heq⟩ := h
  cases heq
  exact ⟨rfl, rfl, rfl, rfl, rfl⟩

theorem ip_resolve_fields {fuel inv e e' evs}
    (h : ip_resolve_relations fuel inv e = .ok (e', evs)) :
    e'.nb_id = e.nb_id ∧ e'.is_new = e.is_new ∧
    e'.updated_items = e.updated_items ∧ e'.tag = e.tag ∧ e'.src = e.src := by
  unfold ip_resolve_relations at h
  dsimp only at h
  split at h
  · rw [except_bind_ok] at h
    obtain ⟨dn, _, hbad⟩ := h
    cases hbad
  · split at h
    · have := resolve_relations_fields h
      simpa using this
    · exact resolve_relations_fields h

theorem disp_resolve_fields {fuel inv e e' evs}
    (h : disp_resolve fuel inv e = .ok (e', evs)) :
    e'.nb_id = e.nb_id ∧ e'.is_new = e.is_new ∧
    e'.updated_items = e.updated_items ∧ e'.tag = e.tag ∧ e'.src = e.src := by
  unfold disp_resolve at h
  split at h
  · exact ip_resolve_fields h
  · exact resolve_relations_fields h

theorem applyItems_fields {fuel inv dn} :
    ∀ {ps : List (String × Value)} {e e' : Entity} {evs},
    applyItems fuel inv dn e ps = .ok (e', evs) →
    e'.nb_id = e.nb_id ∧ e'.is_new = e.is_new ∧
    e'.tag = e.tag ∧ e'.src = e.src := by
  intro ps
  induction ps with
  | nil =>
    intro e e' evs h
    cases h
    exact ⟨rfl, rfl, rfl, rfl⟩
  | cons p rest ih =>
    intro e e' evs h
    obtain ⟨k, newv⟩ := p
    unfold applyItems at h
    dsimp only at h
    split at h
    · exact ih h
    · rw [except_bind_ok] at h
      obtain ⟨cur_str, _, h⟩ := h
      rw [except_bind_ok] at h
      obtain ⟨new_str, _, h⟩ := h
      rw [except_bind_ok] at h
      obtain ⟨fskip, _, h⟩ := h
      split at h
      · exact ih h
      · split at h
        · exact ih h
        · rw [except_bind_ok] at h
          obtain ⟨⟨e2, evs2⟩, hres, h⟩ := h
          rw [except_map_ok] at h
          obtain ⟨⟨e3, evs3⟩, happ, heq⟩ := h
          cases heq
          have hd := disp_resolve_fields hres
          have ha := ih happ
          refine ⟨?_, ?_, ?_, ?_⟩ <;>
            simp_all


/-- C6 (counterexample): a VLAN with `vid = 100` and *no* site value
does not display as the plain `"100"`: the base display logic always
appends the (enforced) secondary key `name`, so with neither site nor
name present the display name is `"100 (None)"`. -/
theorem C6_counterexample :
    displayGo 2 [] .NBVLAN [("vid", .int 100)] false = .ok (.str "100 (None)") ∧
    "100 (None)" ≠ "100" :=
  ⟨rfl, by decide⟩

/-- C6 (amended): with `vid = 100` and a site whose display name is
`"dc1"`, `NBVLAN.get_display_name` returns `"100 (dc1)"`.  With no site
value present it falls back to the *base* (name-suffixed) display — in
particular `"100 (None)"` (not plain `"100"`) when the name is unset
too. -/
theorem C6_vlan_display :
    displayGo 2 [{ tag := .NBSite, data := [("name", .str "dc1")] }]
      .NBVLAN [("vid", .int 100), ("site", .obj 0)] false
      = .ok (.str "100 (dc1)") ∧
    (∀ fuel store dataset inc,
      (alookup dataset "site").getD .none = Value.none →
      displayGo (fuel + 1) store .NBVLAN dataset inc =
        base_get_display_name (fuel + 1) store .NBVLAN dataset inc) ∧
    displayGo 2 [] .NBVLAN [("vid", .int 100)] false = .ok (.str "100 (None)") := by
  refine ⟨rfl, ?_, rfl⟩
  intro fuel store dataset inc h
  simp only [displayGo, base_get_display_name, h, isNotNone, Bool.false_eq_true,
    if_false]
  generalize (match (typeOf TypeTag.NBVLAN).secondary_key with
    | some sk => _
    | Option.none => _ : Except Err Value) = b
  cases b <;> rfl

/-- Witness for the fallback conjunct of `C6_vlan_display`. -/
theorem C6_vlan_display_witness :
    displayGo 1 [] .NBVLAN [("vid", .int 5)] false =
      base_get_display_name 1 [] .NBVLAN [("vid", .int 5)] false :=
  C6_vlan_display.2.1 0 [] [("vid", .int 5)] false rfl

/-- C7: an unknown key is skipped with a non-fatal error signal and the
remaining keys are still processed.  Concretely,
`update({"bogus": 1, "name": "x"})` on the tag schema returns normally
(no exception), stores `name` (with the derived slug), does not store
`bogus`, and logs an error for it; and in general the parse loop turns
an unknown key into exactly one error log and continues with the rest. -/
theorem C7_unknown_key :
    base_update failOps 2 {} (newEntity .NBTag)
      (some [("bogus", .int 1), ("name", .str "x")]) false Option.none
      = .ok ({}, { tag := .NBTag, data := [("name", .str "x"), ("slug", .str "x")],
                   updated_items := ["name", "slug"] },
             [.errLog "Found undefined data model key 'bogus'"]) ∧
    (∀ ops fuel inv e src k v rest,
       dmGet (typeOf e.tag).data_model k = Option.none →
       parseItems ops fuel inv e src ((k, v) :: rest) =
         (parseItems ops fuel inv e src rest).map fun r =>
           (r.1, r.2.1,
            .errLog ("Found undefined data model key '" ++ k ++ "'") :: r.2.2)) := by
  constructor
  · rfl
  · intro ops fuel inv e src k v rest h
    simp only [parseItems, parseOne, h]
    cases hr : parseItems ops fuel inv e src rest with
    | error err => simp [Except.bind, Except.map, hr]
    | ok r => simp [Except.bind, Except.map, hr]

/-- Witness for the parse-continuation conjunct of `C7_unknown_key`. -/
theorem C7_unknown_key_witness :
    parseItems failOps 0 {} (newEntity .NBTag) Option.none [("bogus", .int 1)] =
      (parseItems failOps 0 {} (newEntity .NBTag) Option.none []).map fun r =>
        (r.1, r.2.1,
         .errLog "Found undefined data model key 'bogus'" :: r.2.2) :=
  C7_unknown_key.2 failOps 0 {} (newEntity .NBTag) Option.none "bogus"
    (.int 1) [] rfl

/-- C9: for an IP-address entity whose stored `assigned_object_type`
holds a non-null value outside the known discriminator table, relation
resolution performs the process-level fatal error exit (`do_error_exit`)
rather than resolving or skipping. -/
theorem C9_invalid_discriminator (fuel : Nat) (inv : Inventory)
    (nbid : Value) (isnew : Bool) (dat : List (String × Value))
    (ui us : List String) (src : Option Nat) (dn : Value)
    (hv : isNotNone ((alookup dat "assigned_object_type").getD .none) = true)
    (hnot : pyInList ((alookup dat "assigned_object_type").getD .none)
      [.str "dcim.interface", .str "virtualization.vminterface"] = false)
    (hdisp : dispDisplay fuel inv.store .NBIPAddress dat false = .ok dn) :
    disp_resolve fuel inv
      { tag := .NBIPAddress, nb_id := nbid, is_new := isnew, data := dat,
        updated_items := ui, unset_items := us, src := src } =
      .error (.fatal ("Error while resolving relations for " ++ pyStr dn)) := by
  unfold disp_resolve ip_resolve_relations
  simp only [hv, hnot, Bool.not_false, Bool.and_self, if_true]
  simp only [dispDisplay] at hdisp ⊢
  simp [hdisp, Except.bind]

/-- Witness for `C9_invalid_discriminator`. -/
theorem C9_invalid_discriminator_witness :
    disp_resolve 2 {}
      { tag := .NBIPAddress,
        data := [("address", .str "10.0.0.1/24"),
                 ("assigned_object_type", .str "bogus.kind")] } =
      .error (.fatal ("Error while resolving relations for " ++
        pyStr (.str "10.0.0.1/24"))) :=
  C9_invalid_discriminator 2 {} (.int 0) true
    [("address", .str "10.0.0.1/24"),
     ("assigned_object_type", .str "bogus.kind")] [] [] Option.none
    (.str "10.0.0.1/24") rfl rfl rfl

/-- C10: any `update` whose raw data carries a non-null `id` sets the
entity's remote id — even with `fromRemote = false`, and although `id`
is not a schema attribute — and `get_nb_reference` returns absent
exactly when the remote id compares equal to `0`;  a source-side update
that merely carried an `id` therefore makes `get_nb_reference`
non-absent. -/
theorem C10_remote_id :
    (∀ ops fuel inv e dd rfn src idv inv' e' evs,
       alookup dd "id" = some idv → isNotNone idv = true →
       base_update ops fuel inv e (some dd) rfn src = .ok (inv', e', evs) →
       e'.nb_id = idv) ∧
    (∀ e : Entity,
       get_nb_reference e = Option.none ↔ pyEq e.nb_id (.int 0) = true) := by
  constructor
  · intro ops fuel inv e dd rfn src idv inv' e' evs hid hnn h
    unfold base_update at h
    dsimp only at h
    rw [hid] at h
    simp only [hnn, if_true] at h
    split at h
    · cases h
      rfl
    · rw [except_bind_ok] at h
      obtain ⟨dn1, _, h⟩ := h
      rw [except_bind_ok] at h
      obtain ⟨dnv, _, h⟩ := h
      rw [except_bind_ok] at h
      obtain ⟨⟨inv3, parsed, evs1⟩, _, h⟩ := h
      rw [except_bind_ok] at h
      obtain ⟨parsed2, _, h⟩ := h
      rw [except_map_ok] at h
      obtain ⟨⟨e3, evs2⟩, happ, heq⟩ := h
      have hf := applyItems_fields happ
      cases heq
      split at hf <;> simp_all
  · intro e
    unfold get_nb_reference
    split <;> simp_all

/-- Witness for `C10_remote_id`. -/
theorem C10_remote_id_witness :
    Entity.nb_id
        { tag := TypeTag.NBTag, nb_id := Value.int 7, is_new := true,
          data := [("name", Value.str "x"), ("slug", Value.str "x")],
          updated_items := ["name", "slug"], unset_items := [],
          src := Option.none }
      = Value.int 7 ∧
    (get_nb_reference (newEntity .NBTag) = Option.none ↔
      pyEq (newEntity .NBTag).nb_id (.int 0) = true) :=
  ⟨C10_remote_id.1 failOps 2 {} (newEntity .NBTag)
      [("id", .int 7), ("name", .str "x")] false Option.none (.int 7) {}
      { tag := TypeTag.NBTag, nb_id := Value.int 7, is_new := true,
        data := [("name", Value.str "x"), ("slug", Value.str "x")],
        updated_items := ["name", "slug"], unset_items := [],
        src := Option.none }
      [.errLog "Found undefined data model key 'id'"] rfl rfl rfl,
   C10_remote_id.2 (newEntity .NBTag)⟩

theorem pyNumeric_of_pyFloatQ {v : Value} {q : ℚ} (h : pyFloatQ v = some q) :
    pyNumeric v = true := by
  cases v <;> simp_all [pyFloatQ, pyNumeric]

theorem pyEq_int_bool (a : Int) (b : Bool) :
    (pyEq (.int a) (.bool b) = true ↔ pyFloatQ (.int a) = pyFloatQ (.bool b)) := by
  cases b <;> simp [pyEq, pyFloatQ] <;> constructor <;> intro h <;>
    first | exact_mod_cast h | exact_mod_cast h.symm

theorem pyEq_bool_int (a : Bool) (b : Int) :
    (pyEq (.bool a) (.int b) = true ↔ pyFloatQ (.bool a) = pyFloatQ (.int b)) := by
  cases a <;> simp [pyEq, pyFloatQ] <;> constructor <;> intro h <;>
    first | exact_mod_cast h | exact_mod_cast h.symm

theorem pyEq_bool_float (a : Bool) (q : ℚ) :
    (pyEq (.bool a) (.float q) = true ↔
      pyFloatQ (.bool a) = pyFloatQ (.float q)) := by
  cases a <;>
    simp only [pyEq, pyFloatQ, beq_iff_eq, Option.some.injEq] <;>
    first | exact eq_comm | rfl

theorem pyEq_float_bool (q : ℚ) (b : Bool) :
    (pyEq (.float q) (.bool b) = true ↔
      pyFloatQ (.float q) = pyFloatQ (.bool b)) := by
  cases b <;>
    simp only [pyEq, pyFloatQ, beq_iff_eq, Option.some.injEq] <;>
    first | exact eq_comm | rfl | exact Iff.rfl

theorem pyEq_numeric_iff {v w : Value} (hv : pyNumeric v = true)
    (hw : pyNumeric w = true) :
    (pyEq v w = true ↔ pyFloatQ v = pyFloatQ w) := by
  cases v <;> cases w <;>
  first
    | (exact (Bool.false_ne_true (by simpa [pyNumeric] using hv)).elim)
    | (exact (Bool.false_ne_true (by simpa [pyNumeric] using hw)).elim)
    | (apply pyEq_int_bool)
    | (apply pyEq_bool_int)
    | (apply pyEq_bool_float)
    | (apply pyEq_float_bool)
    | (rename_i a b; cases a <;> cases b <;> decide)
    | (simp only [pyEq, pyFloatQ, beq_iff_eq, Option.some.injEq, Int.cast_inj])

theorem dmGet_id_none : ∀ t : TypeTag,
    dmGet (typeOf t).data_model "id" = Option.none := by
  intro t
  cases t <;> rfl

theorem isNotNone_of_numeric {v : Value} (h : pyNumeric v = true) :
    isNotNone v = true := by
  cases v <;> simp_all [pyNumeric, isNotNone]

theorem addSlug_nil {t : TypeTag} {p2} (h : addSlug t [] = .ok p2) :
    p2 = [] := by
  unfold addSlug at h
  dsimp only at h
  cases hsd : dmGet (typeOf t).data_model "slug" <;> rw [hsd] at h
  · cases h; rfl
  · simp only [alookup, Option.getD, isNotNone, Bool.not_false,
      Bool.and_false, Bool.false_eq_true, if_false] at h
    cases h
    rfl

theorem addSlug_nonstr {t : TypeTag} {k : String} {v : Value} {p2}
    (hnv : isNotNone v = true) (hstr : ∀ s, v ≠ .str s)
    (h : addSlug t [(k, v)] = .ok p2) : p2 = [(k, v)] := by
  unfold addSlug at h
  dsimp only at h
  cases hsd : dmGet (typeOf t).data_model "slug" with
  | none => rw [hsd] at h; cases h; rfl
  | some sdt =>
    rw [hsd] at h
    by_cases hks : k = "slug"
    · subst hks
      simp [alookup, hnv] at h
      exact h.symm
    · by_cases hkp : k = (typeOf t).primary_key
      · rw [← hkp] at h
        rcases v with _ | s | _ | _ | _ | _ | _ | _ | _ | _ | _
        · simp [isNotNone] at hnv
        · exact absurd rfl (hstr s)
        all_goals (cases sdt <;> simp [alookup, if_neg hks, isNotNone] at h)
      · simp [alookup, if_neg hks, if_neg hkp, isNotNone] at h
        exact h.symm

theorem C8_core (ops : InvOps) (fuel : Nat) (inv inv3 : Inventory)
    (E : Entity) (k : String) (newv : Value) (src : Option Nat)
    (dn : String) (parsed : List (String × Value)) (evs1 : List Ev)
    (parsed2 : List (String × Value)) (e3 : Entity) (evs2 : List Ev)
    (hk : strStarts k "primary_ip" = false)
    (hdm : dmGet (typeOf E.tag).data_model k = some .intT ∨
           dmGet (typeOf E.tag).data_model k = some .floatT)
    (hnum : pyNumeric newv = true)
    (hfl : pyFloatQ ((alookup E.data k).getD .none) = pyFloatQ newv)
    (hparse : parseItems ops fuel inv E src [(k, newv)] = .ok (inv3, parsed, evs1))
    (hslug : addSlug E.tag parsed = .ok parsed2)
    (happ : applyItems fuel inv3 dn E parsed2 = .ok (e3, evs2)) :
    e3.data = E.data ∧ e3.updated_items = E.updated_items ∧
    changeCount evs1 = 0 ∧ changeCount evs2 = 0 := by
  have hnn := isNotNone_of_numeric hnum
  have hcur : pyNumeric ((alookup E.data k).getD .none) = true := by
    have : ∃ q, pyFloatQ newv = some q := by
      cases newv <;> simp_all [pyNumeric, pyFloatQ]
    obtain ⟨q, hq⟩ := this
    exact pyNumeric_of_pyFloatQ (q := q) (hfl.trans hq)
  have hskip : pyEq ((alookup E.data k).getD .none) newv = true :=
    (pyEq_numeric_iff hcur hnum).mpr hfl
  -- characterise the parse of the single item
  have hpd : (parsed = [(k, newv)] ∧ inv3 = inv ∧ evs1 = []) ∨
      (parsed = [] ∧ inv3 = inv ∧ changeCount evs1 = 0) := by
    unfold parseItems parseOne at hparse
    rcases hdm with hdm | hdm <;> rw [hdm] at hparse <;>
      simp only [hnn, Bool.not_true, Bool.false_eq_true, if_false, hk,
        if_true, parseItems, Except.bind, Except.map] at hparse
    · cases newv <;> dsimp only at hparse <;>
        first
          | (cases hparse; exact Or.inl ⟨rfl, rfl, rfl⟩)
          | (cases hparse; exact Or.inr ⟨rfl, rfl, rfl⟩)
          | simp_all [pyNumeric]
    · cases hparse
      exact Or.inl ⟨rfl, rfl, rfl⟩
  rcases hpd with ⟨hp, hinv, hev⟩ | ⟨hp, hinv, hev⟩
  · subst hp hinv hev
    have hstr : ∀ s, newv ≠ .str s := by
      intro s hs
      subst hs
      simp [pyNumeric] at hnum
    have hps2 := addSlug_nonstr hnn hstr hslug
    subst hps2
    unfold applyItems at happ
    dsimp only at happ
    rw [if_pos hskip] at happ
    unfold applyItems at happ
    cases happ
    exact ⟨rfl, rfl, rfl, rfl⟩
  · subst hp hinv
    have hps2 := addSlug_nil hslug
    subst hps2
    unfold applyItems at happ
    cases happ
    exact ⟨rfl, rfl, hev, rfl⟩

theorem changeCount_append (a b : List Ev) :
    changeCount (a ++ b) = changeCount a + changeCount b := by
  simp [changeCount, List.filter_append]

/-- C8: updating an `Integer`/`Float`-declared attribute with a numeric
value whose float form equals the float form of the current stored value
(e.g. `4` → `4.0`) stores nothing, appends nothing to the change list
and emits no change record. -/
theorem C8_numeric_tolerance (ops : InvOps) (fuel : Nat) (inv : Inventory)
    (e : Entity) (k : String) (newv : Value) (src : Option Nat)
    (inv' : Inventory) (e' : Entity) (evs : List Ev)
    (hk : strStarts k "primary_ip" = false)
    (hdm : dmGet (typeOf e.tag).data_model k = some .intT ∨
           dmGet (typeOf e.tag).data_model k = some .floatT)
    (hnum : pyNumeric newv = true)
    (hfl : pyFloatQ ((alookup e.data k).getD .none) = pyFloatQ newv)
    (hok : base_update ops fuel inv e (some [(k, newv)]) false src =
      .ok (inv', e', evs)) :
    e'.data = e.data ∧ e'.updated_items = e.updated_items ∧
    changeCount evs = 0 := by
  have hkid : k ≠ "id" := by
    intro hk'
    rw [hk', dmGet_id_none] at hdm
    rcases hdm with h | h <;> cases h
  unfold base_update at hok
  dsimp only at hok
  have hid : alookup [(k, newv)] "id" = Option.none := by
    simp [alookup, hkid]
  rw [hid] at hok
  split at hok
  · simp_all
  · cases src with
    | none =>
      rw [except_bind_ok] at hok
      obtain ⟨dn1, _, hok⟩ := hok
      rw [except_bind_ok] at hok
      obtain ⟨dnv, _, hok⟩ := hok
      rw [except_bind_ok] at hok
      obtain ⟨⟨inv3, parsed, evs1⟩, hparse, hok⟩ := hok
      rw [except_bind_ok] at hok
      obtain ⟨parsed2, hslug, hok⟩ := hok
      rw [except_map_ok] at hok
      obtain ⟨⟨e3, evs2⟩, happ, heq⟩ := hok
      obtain ⟨h1, h2, h3, h4⟩ := C8_core ops fuel inv inv3 e k newv
        Option.none _ parsed evs1 parsed2 e3 evs2 hk hdm hnum hfl hparse
        hslug happ
      cases heq
      refine ⟨h1, h2, ?_⟩
      rw [changeCount_append, h3, h4]
    | some s0 =>
      rw [except_bind_ok] at hok
      obtain ⟨dn1, _, hok⟩ := hok
      rw [except_bind_ok] at hok
      obtain ⟨dnv, _, hok⟩ := hok
      rw [except_bind_ok] at hok
      obtain ⟨⟨inv3, parsed, evs1⟩, hparse, hok⟩ := hok
      rw [except_bind_ok] at hok
      obtain ⟨parsed2, hslug, hok⟩ := hok
      rw [except_map_ok] at hok
      obtain ⟨⟨e3, evs2⟩, happ, heq⟩ := hok
      obtain ⟨h1, h2, h3, h4⟩ := C8_core ops fuel inv inv3
        { e with src := some s0 } k newv (some s0) _ parsed evs1 parsed2
        e3 evs2 hk hdm hnum hfl hparse hslug happ
      cases heq
      refine ⟨h1, h2, ?_⟩
      rw [changeCount_append, h3, h4]

/-- Witness for `C8_numeric_tolerance`: a virtual machine whose stored
`vcpus` is the integer `4`, updated with the float `4.0`. -/
theorem C8_numeric_tolerance_witness :
    (Entity.data
        { tag := TypeTag.NBVM, is_new := false,
          data := [("name", Value.str "v"), ("vcpus", Value.int 4)] }
      = [("name", Value.str "v"), ("vcpus", Value.int 4)]) ∧
    (Entity.updated_items
        { tag := TypeTag.NBVM, is_new := false,
          data := [("name", Value.str "v"), ("vcpus", Value.int 4)] }
      = []) ∧
    changeCount [] = 0 := by
  have h := C8_numeric_tolerance failOps 2 {}
    { tag := TypeTag.NBVM, is_new := false,
      data := [("name", Value.str "v"), ("vcpus", Value.int 4)] }
    "vcpus" (.float 4) Option.none {}
    { tag := TypeTag.NBVM, is_new := false,
      data := [("name", Value.str "v"), ("vcpus", Value.int 4)] }
    [] rfl (Or.inr rfl) rfl rfl rfl
  exact h

theorem alookup_aset_self (d : List (String × Value)) (k : String) (v : Value) :
    alookup (aset d k v) k = some v := by
  induction d with
  | nil => simp [aset, alookup]
  | cons p rest ih =>
    obtain ⟨k', w⟩ := p
    by_cases h : k' = k
    · subst h
      simp [aset, alookup]
    · simp [aset, alookup, h, ih]

theorem alookup_aset_ne (d : List (String × Value)) {k k' : String}
    (v : Value) (h : k' ≠ k) : alookup (aset d k' v) k = alookup d k := by
  induction d with
  | nil => simp [aset, alookup, h]
  | cons p rest ih =>
    obtain ⟨k0, w⟩ := p
    by_cases h0 : k0 = k'
    · subst h0
      simp [aset, alookup, h]
    · simp only [aset, if_neg h0, alookup]
      by_cases h1 : k0 = k <;> simp [h1, ih]

theorem entitySim_refl (e : Entity) : entitySim e e :=
  ⟨rfl, rfl, rfl, rfl, rfl, rfl⟩

theorem entitySim_trans {a b c : Entity} (h1 : entitySim a b)
    (h2 : entitySim b c) : entitySim a c := by
  obtain ⟨x1, x2, x3, x4, x5, x6⟩ := h1
  obtain ⟨y1, y2, y3, y4, y5, y6⟩ := h2
  exact ⟨x1.trans y1, x2.trans y2, x3.trans y3, x4.trans y4,
    x5.trans y5, x6.trans y6⟩

theorem invExtends_refl (a : Inventory) : InvExtends a a :=
  ⟨fun _ _ h => ⟨_, h, entitySim_refl _⟩, fun _ _ h => h⟩

theorem invExtends_trans {a b c : Inventory} (h1 : InvExtends a b)
    (h2 : InvExtends b c) : InvExtends a c := by
  refine ⟨fun i ea ha => ?_, fun j m hm => h2.2 j m (h1.2 j m hm)⟩
  obtain ⟨eb, hb, hsim⟩ := h1.1 i ea ha
  obtain ⟨ec, hc, hsim'⟩ := h2.1 i eb hb
  exact ⟨ec, hc, entitySim_trans hsim hsim'⟩

theorem storeTag_extends {a b : Inventory} {h : Nat} {t : TypeTag}
    (hab : InvExtends a b) (ht : storeTag a h = some t) :
    storeTag b h = some t := by
  unfold storeTag at ht ⊢
  cases hg : a.store.get? h with
  | none => rw [hg] at ht; cases ht
  | some ea =>
    rw [hg] at ht
    obtain ⟨eb, hb, hsim⟩ := hab.1 h ea hg
    rw [hb]
    simpa [← hsim.1] using ht

theorem listGetSet_self {α : Type} :
    ∀ (l : List α) (i : Nat) (a x : α),
    l.get? i = some x → (l.set i a).get? i = some a := by
  intro l
  induction l with
  | nil => intro i a x h; simp [List.get?] at h
  | cons hd tl ih =>
    intro i a x h
    cases i with
    | zero => simp [List.set, List.get?]
    | succ n =>
      simpa [List.set, List.get?] using ih n a x (by simpa [List.get?] using h)

theorem listGetSet_ne {α : Type} :
    ∀ (l : List α) {i j : Nat} (a : α), i ≠ j →
    (l.set i a).get? j = l.get? j := by
  intro l
  induction l with
  | nil => intro i j a _; simp [List.set]
  | cons hd tl ih =>
    intro i j a hij
    cases i with
    | zero =>
      cases j with
      | zero => exact absurd rfl hij
      | succ m => simp [List.set, List.get?]
    | succ n =>
      cases j with
      | zero => simp [List.set, List.get?]
      | succ m =>
        have : n ≠ m := fun h => hij (by rw [h])
        simpa [List.set, List.get?] using ih a this

theorem invExtends_setSrc (inv : Inventory) (h : Nat) (src : Option Nat) :
    InvExtends inv (invSetSrc inv h src) := by
  unfold invSetSrc
  split
  · split
    · next ent hg _ =>
        refine ⟨fun i ea ha => ?_, fun j m hm => hm⟩
        by_cases hi : h = i
        · subst hi
          rw [hg] at ha
          cases ha
          exact ⟨{ ent with src := src }, listGetSet_self _ _ _ _ hg,
            ⟨rfl, rfl, rfl, rfl, rfl, rfl⟩⟩
        · exact ⟨ea, by rw [listGetSet_ne _ _ hi]; exact ha, entitySim_refl _⟩
    · exact invExtends_refl _
  · exact invExtends_refl _

theorem dm_keys_nodup : ∀ t : TypeTag,
    ((typeOf t).data_model.map Prod.fst).Nodup := by
  intro t
  cases t <;> decide

theorem dmGet_split {l : List (String × DataType)} {k : String}
    {dt : DataType} (h : dmGet l k = some dt) :
    ∃ pre post, l = pre ++ (k, dt) :: post ∧ ∀ p ∈ pre, p.1 ≠ k := by
  induction l with
  | nil => cases h
  | cons p rest ih =>
    obtain ⟨k', dt'⟩ := p
    by_cases hk : k' = k
    · subst hk
      unfold dmGet at h
      rw [if_pos rfl] at h
      cases h
      exact ⟨[], rest, rfl, by simp⟩
    · unfold dmGet at h
      rw [if_neg hk] at h
      obtain ⟨pre, post, heq, hpre⟩ := ih h
      refine ⟨(k', dt') :: pre, post, ?_, ?_⟩
      · rw [heq]
        rfl
      · intro p hp
        rcases List.mem_cons.mp hp with hp | hp
        · subst hp; exact hk
        · exact hpre p hp

theorem failOps_lawful : OpsLawful failOps :=
  fun _ _ _ _ _ _ _ hadd => nomatch hadd

theorem dmGet_mem {l : List (String × DataType)} {k : String} {dt : DataType}
    (h : dmGet l k = some dt) : (k, dt) ∈ l := by
  induction l with
  | nil => cases h
  | cons p rest ih =>
    obtain ⟨k0, dt0⟩ := p
    unfold dmGet at h
    by_cases hk : k0 = k
    · rw [if_pos hk] at h
      cases h
      subst hk
      exact List.mem_cons_self _ _
    · rw [if_neg hk] at h
      exact List.mem_cons_of_mem _ (ih h)

theorem dmGet_unique {l : List (String × DataType)}
    (hn : (l.map Prod.fst).Nodup) {k : String} {dt : DataType}
    (hm : (k, dt) ∈ l) : dmGet l k = some dt := by
  induction l with
  | nil => cases hm
  | cons p rest ih =>
    obtain ⟨k0, dt0⟩ := p
    simp only [List.map_cons, List.nodup_cons] at hn
    rcases List.mem_cons.mp hm with he | hm'
    · cases he
      unfold dmGet
      rw [if_pos rfl]
    · unfold dmGet
      by_cases hk : k0 = k
      · exfalso
        subst hk
        exact hn.1 (List.mem_map.mpr ⟨(k0, dt), hm', rfl⟩)
      · rw [if_neg hk]
        exact ih hn.2 hm'

theorem tag_ne_ip_of_vlanList {t : TypeTag} {k : String}
    (h : dmGet (typeOf t).data_model k = some .vlanListT) :
    t ≠ .NBIPAddress := by
  intro ht
  subst ht
  have hm := dmGet_mem h
  simp [typeOf] at hm

theorem disp_resolve_base {fuel : Nat} {inv : Inventory} {e : Entity}
    (h : e.tag ≠ .NBIPAddress) :
    disp_resolve fuel inv e = resolve_relations fuel inv e := by
  unfold disp_resolve
  cases ht : e.tag
  case NBIPAddress => exact absurd ht h
  all_goals rfl

theorem resolveListItems_id (inv : Inventory) (mt : TypeTag) :
    ∀ hs : List Nat, (∀ x ∈ hs, storeTag inv x = some mt) →
    resolveListItems inv mt (hs.map Value.obj) = hs := by
  intro hs
  induction hs with
  | nil => intro _; rfl
  | cons x rest ih =>
    intro hall
    have hx : storeTag inv x = some mt := hall x (List.mem_cons_self _ _)
    have hr := ih fun y hy => hall y (List.mem_cons_of_mem _ hy)
    simp only [List.map_cons]
    unfold resolveListItems
    dsimp only
    rw [if_pos hx, hr]

theorem accAdd_nodup {acc : List Nat} {x : Nat} (hn : acc.Nodup) :
    (if acc.contains x then acc else acc ++ [x]).Nodup := by
  split
  · exact hn
  · next hc =>
      have hm : x ∉ acc := by simpa using hc
      simp [List.nodup_append, hn, hm]

theorem accAdd_mem {acc : List Nat} {x y : Nat}
    (hy : y ∈ (if acc.contains x then acc else acc ++ [x])) :
    y ∈ acc ∨ y = x := by
  split at hy
  · exact Or.inl hy
  · rcases List.mem_append.mp hy with h | h
    · exact Or.inl h
    · exact Or.inr (List.mem_singleton.mp h)

theorem compileVlansLoop_nodup (ops : InvOps) (e : Entity) :
    ∀ (elems : List Value) (inv : Inventory) (acc : List Nat)
      {inv1 : Inventory} {hs : List Nat} {evs : List Ev},
    compileVlansLoop ops inv e elems acc = .ok (inv1, hs, evs) →
    acc.Nodup → hs.Nodup := by
  intro elems
  induction elems with
  | nil =>
    intro inv acc inv1 hs evs h hn
    unfold compileVlansLoop at h
    cases h
    exact hn
  | cons v rest ih =>
    intro inv acc inv1 hs evs h hn
    unfold compileVlansLoop at h
    cases v
    case obj x =>
      dsimp only at h
      split at h
      · exact ih _ _ h (accAdd_nodup hn)
      · rw [except_map_ok] at h
        obtain ⟨⟨i1, hs1, evs1⟩, hrec, heq⟩ := h
        cases heq
        exact ih _ _ hrec hn
    case vdict dd =>
      dsimp only at h
      rw [except_bind_ok] at h
      obtain ⟨⟨iA, x, evs1⟩, hadd, h2⟩ := h
      rw [except_map_ok] at h2
      obtain ⟨⟨i2, hs2, evs2⟩, hrec, heq⟩ := h2
      cases heq
      exact ih _ _ hrec (accAdd_nodup hn)
    all_goals
      dsimp only at h
      rw [except_map_ok] at h
      obtain ⟨⟨i1, hs1, evs1⟩, hrec, heq⟩ := h
      cases heq
      exact ih _ _ hrec hn

theorem compileVlansLoop_ex_tags {ops : InvOps} (hlaw : OpsLawful ops)
    (e : Entity) :
    ∀ (elems : List Value) (inv : Inventory) (acc : List Nat)
      {inv1 : Inventory} {hs : List Nat} {evs : List Ev},
    compileVlansLoop ops inv e elems acc = .ok (inv1, hs, evs) →
    (∀ x ∈ acc, storeTag inv x = some .NBVLAN) →
    InvExtends inv inv1 ∧ ∀ x ∈ hs, storeTag inv1 x = some .NBVLAN := by
  intro elems
  induction elems with
  | nil =>
    intro inv acc inv1 hs evs h hacc
    unfold compileVlansLoop at h
    cases h
    exact ⟨invExtends_refl _, hacc⟩
  | cons v rest ih =>
    intro inv acc inv1 hs evs h hacc
    unfold compileVlansLoop at h
    cases v
    case obj x =>
      dsimp only at h
      split at h
      · next htag =>
        refine ih _ _ h ?_
        intro y hy
        rcases accAdd_mem hy with hy' | hy'
        · exact hacc y hy'
        · subst hy'
          exact htag
      · rw [except_map_ok] at h
        obtain ⟨⟨i1, hs1, evs1⟩, hrec, heq⟩ := h
        cases heq
        exact ih _ _ hrec hacc
    case vdict dd =>
      dsimp only at h
      rw [except_bind_ok] at h
      obtain ⟨⟨iA, x, evs1⟩, hadd, h2⟩ := h
      rw [except_map_ok] at h2
      obtain ⟨⟨i2, hs2, evs2⟩, hrec, heq⟩ := h2
      cases heq
      obtain ⟨hext, htag, _⟩ := hlaw inv .NBVLAN (.vdict dd) e.src iA x evs1 hadd
      have hacc' : ∀ y ∈ (if acc.contains x then acc else acc ++ [x]),
          storeTag iA y = some .NBVLAN := by
        intro y hy
        rcases accAdd_mem hy with hy' | hy'
        · exact storeTag_extends hext (hacc y hy')
        · subst hy'
          exact htag
      obtain ⟨hext2, htags2⟩ := ih _ _ hrec hacc'
      exact ⟨invExtends_trans hext hext2, htags2⟩
    all_goals
      dsimp only at h
      rw [except_map_ok] at h
      obtain ⟨⟨i1, hs1, evs1⟩, hrec, heq⟩ := h
      cases heq
      exact ih _ _ hrec hacc

theorem compile_vlans_loop_of_ok {ops : InvOps} {inv : Inventory}
    {e : Entity} {elems : List Value} {invc : Inventory} {chs : List Nat}
    {cevs : List Ev}
    (h : compile_vlans ops inv e (.vlist elems) =
      .ok (invc, some (.vlansV chs), cevs)) :
    compileVlansLoop ops inv e elems [] = .ok (invc, chs, cevs) := by
  unfold compile_vlans at h
  split at h
  · cases h
  · rw [except_bind_ok] at h
    obtain ⟨l, hl, h2⟩ := h
    cases hl
    rw [except_map_ok] at h2
    obtain ⟨⟨i1, hs1, evs1⟩, hloop, heq⟩ := h2
    cases heq
    exact hloop

theorem bracket_ne_none (s : String) : ("[" ++ s ++ "]") ≠ "None" := by
  intro h
  have hd : (('[' :: s.data) ++ [']']) = ['N', 'o', 'n', 'e'] := by
    have h2 := congrArg String.data h
    rw [String.data_append, String.data_append] at h2
    exact h2
  have h1 : ('[' : Char) = 'N' := by injection hd
  exact absurd h1 (by decide)

theorem vlist_str_ne_none (l : List Value) : pyStr (.vlist l) ≠ "None" :=
  bracket_ne_none (pyReprList l)

theorem currentValueStr_vlansV {fuel : Nat} {inv : Inventory} {t : TypeTag}
    {k : String} {hs : List Nat} {s : String}
    (h : currentValueStr fuel inv t k (.vlansV hs) = .ok s) :
    displayStrOf fuel inv.store (.vlansV hs) = .ok (some s) := by
  unfold currentValueStr at h
  rw [except_map_ok] at h
  obtain ⟨ds, hds, heq⟩ := h
  unfold displayStrOf at hds ⊢
  rw [except_map_ok] at hds
  obtain ⟨dl, hdl, heq2⟩ := hds
  subst heq2
  rw [except_map_ok]
  exact ⟨dl, hdl, congrArg some heq⟩

theorem newValueStr_vlansV {fuel : Nat} {inv : Inventory} {hs : List Nat}
    {s : String} (h : newValueStr fuel inv (.vlansV hs) = .ok s) :
    displayStrOf fuel inv.store (.vlansV hs) = .ok (some s) := by
  unfold newValueStr at h
  rw [except_map_ok] at h
  obtain ⟨ds, hds, heq⟩ := h
  unfold displayStrOf at hds ⊢
  rw [except_map_ok] at hds
  obtain ⟨dl, hdl, heq2⟩ := hds
  subst heq2
  rw [except_map_ok]
  exact ⟨dl, hdl, congrArg some heq⟩

theorem newValueStr_vlansV_shape {fuel : Nat} {inv : Inventory}
    {hs : List Nat} {s : String}
    (h : newValueStr fuel inv (.vlansV hs) = .ok s) :
    ∃ dl, s = pyStr (.vlist (sortValues dl)) := by
  unfold newValueStr at h
  rw [except_map_ok] at h
  obtain ⟨ds, hds, heq⟩ := h
  unfold displayStrOf at hds
  rw [except_map_ok] at hds
  obtain ⟨dl, hdl, heq2⟩ := hds
  subst heq2
  exact ⟨dl, heq.symm⟩

theorem currentValueStr_none_vlan {fuel : Nat} {inv : Inventory}
    {t : TypeTag} {k : String} {s : String}
    (hdm : dmGet (typeOf t).data_model k = some .vlanListT)
    (h : currentValueStr fuel inv t k Value.none = .ok s) : s = "None" := by
  unfold currentValueStr at h
  rw [except_map_ok] at h
  obtain ⟨ds, hds, heq⟩ := h
  have hds' : (Except.ok Option.none : Except Err (Option String)) = .ok ds :=
    hds
  have : (Option.none : Option String) = ds := by injection hds'
  subst this
  rw [hdm] at heq
  exact heq.symm

theorem resolveOne_shape {fuel : Nat} {inv : Inventory} {e : Entity}
    {dat : List (String × Value)} {k0 : String} {dt : DataType}
    {dat1 : List (String × Value)} {evs : List Ev}
    (h : resolveOne fuel inv e dat k0 dt = .ok (dat1, evs)) :
    dat1 = dat ∨ ∃ w, dat1 = aset dat k0 w := by
  unfold resolveOne at h
  dsimp only at h
  split at h
  · cases h
    exact Or.inl rfl
  · split at h
    · rw [except_bind_ok] at h
      obtain ⟨ov, hov, h2⟩ := h
      split at h2
      · cases h2
        exact Or.inr ⟨_, rfl⟩
      · rw [except_map_ok] at h2
        obtain ⟨dn, _, heq⟩ := h2
        cases heq
        exact Or.inl rfl
    · rw [except_map_ok] at h
      obtain ⟨l, _, heq⟩ := h
      cases heq
      exact Or.inr ⟨_, rfl⟩
    · rw [except_map_ok] at h
      obtain ⟨l, _, heq⟩ := h
      cases heq
      exact Or.inr ⟨_, rfl⟩
    · cases h
      exact Or.inl rfl

theorem resolveItems_keeps_vlan {fuel : Nat} {inv : Inventory} {e : Entity}
    {k : String} {chs : List Nat}
    (hch : ∀ x ∈ chs, storeTag inv x = some .NBVLAN)
    (hkpi : strStarts k "primary_ip" = false) :
    ∀ (items : List (String × DataType)) (dat : List (String × Value))
      {dat' : List (String × Value)} {evs : List Ev},
    resolveItems fuel inv e dat items = .ok (dat', evs) →
    alookup dat k = some (.vlansV chs) →
    (∀ p ∈ items, p.1 = k → p.2 = .vlanListT) →
    alookup dat' k = some (.vlansV chs) := by
  intro items
  induction items with
  | nil =>
    intro dat dat' evs h hdat _
    unfold resolveItems at h
    cases h
    exact hdat
  | cons kd rest ih =>
    obtain ⟨k0, dt0⟩ := kd
    intro dat dat' evs h hdat hvl
    unfold resolveItems at h
    rw [except_bind_ok] at h
    obtain ⟨⟨d1, ev1⟩, h1, h2⟩ := h
    rw [except_map_ok] at h2
    obtain ⟨⟨d2, ev2⟩, hrest, heq⟩ := h2
    cases heq
    have hvl' : ∀ p ∈ rest, p.1 = k → p.2 = .vlanListT :=
      fun p hp => hvl p (List.mem_cons_of_mem _ hp)
    by_cases hk0 : k0 = k
    · subst hk0
      have hdt0 : dt0 = .vlanListT := hvl (k0, dt0) (List.mem_cons_self _ _) rfl
      subst hdt0
      unfold resolveOne at h1
      rw [hdat] at h1
      dsimp only at h1
      rw [hkpi] at h1
      simp only [Option.getD_some, isNotNone, Bool.not_true,
        Bool.false_eq_true, if_false] at h1
      rw [except_map_ok] at h1
      obtain ⟨l, hl, heq1⟩ := h1
      cases hl
      cases heq1
      refine ih _ hrest ?_ hvl'
      rw [resolveListItems_id inv .NBVLAN chs hch, alookup_aset_self]
    · rcases resolveOne_shape h1 with hsh | ⟨w, hsh⟩
      · subst hsh
        exact ih _ hrest hdat hvl'
      · subst hsh
        refine ih _ hrest ?_ hvl'
        rw [alookup_aset_ne _ _ hk0]
        exact hdat

theorem addSlug_single_vlan {t : TypeTag} {k : String} {chs : List Nat}
    {p2 : List (String × Value)}
    (hdm : dmGet (typeOf t).data_model k = some .vlanListT)
    (h : addSlug t [(k, .vlansV chs)] = .ok p2) :
    p2 = [(k, .vlansV chs)] := by
  unfold addSlug at h
  dsimp only at h
  cases hsd : dmGet (typeOf t).data_model "slug" with
  | none =>
    rw [hsd] at h
    cases h
    rfl
  | some slugdt =>
    rw [hsd] at h
    by_cases hk : k = "slug"
    · subst hk
      have hsl : alookup [("slug", Value.vlansV chs)] "slug" =
          some (.vlansV chs) := by simp [alookup]
      rw [hsl] at h
      simp only [Option.getD_some, isNotNone, Bool.not_true, Bool.false_and,
        Bool.false_eq_true, if_false] at h
      cases h
      rfl
    · have ha : alookup [(k, Value.vlansV chs)] "slug" = Option.none := by
        simp [alookup, hk]
      rw [ha] at h
      by_cases hpk : k = (typeOf t).primary_key
      · have hb : alookup [(k, Value.vlansV chs)] (typeOf t).primary_key =
            some (.vlansV chs) := by simp [alookup, hpk]
        rw [hb] at h
        simp only [Option.getD_none, Option.getD_some, isNotNone,
          Bool.not_false, Bool.true_and, if_true] at h
        cases slugdt <;> cases h
      · have hb : alookup [(k, Value.vlansV chs)] (typeOf t).primary_key =
            Option.none := by simp [alookup, hpk]
        rw [hb] at h
        simp only [Option.getD_none, isNotNone, Bool.and_false,
          Bool.false_eq_true, if_false] at h
        cases h
        rfl

theorem apply_single_vlan {fuel : Nat} {invc : Inventory} {dispName : String}
    {e : Entity} {k : String} {chs : List Nat} {e' : Entity} {evs2 : List Ev}
    (hdm : dmGet (typeOf e.tag).data_model k = some .vlanListT)
    (hkpi : strStarts k "primary_ip" = false)
    (hch : ∀ x ∈ chs, storeTag invc x = some .NBVLAN)
    (hprior : (alookup e.data k).getD Value.none = Value.none ∨
      ∃ hs₀, alookup e.data k = some (.vlansV hs₀))
    (h : applyItems fuel invc dispName e [(k, .vlansV chs)] = .ok (e', evs2)) :
    ∃ hs', alookup e'.data k = some (.vlansV hs') ∧
      (hs' = chs ∨
       ∃ s, displayStrOf fuel invc.store (.vlansV hs') = .ok (some s) ∧
         displayStrOf fuel invc.store (.vlansV chs) = .ok (some s)) := by
  have hnip : e.tag ≠ .NBIPAddress := tag_ne_ip_of_vlanList hdm
  have hvl : ∀ p ∈ (typeOf e.tag).data_model, p.1 = k → p.2 = .vlanListT := by
    intro p hp hpk
    obtain ⟨p1, p2⟩ := p
    dsimp only at hpk
    subst hpk
    have h2 := dmGet_unique (dm_keys_nodup e.tag) hp
    rw [hdm] at h2
    injection h2 with h3
    exact h3.symm
  unfold applyItems at h
  dsimp only at h
  rcases hprior with hc | ⟨hs₀, hc⟩
  · rw [hc] at h
    rw [show pyEq Value.none (.vlansV chs) = false from rfl] at h
    simp only [Bool.false_eq_true, if_false] at h
    rw [except_bind_ok] at h
    obtain ⟨cur_str, hcs, h⟩ := h
    rw [except_bind_ok] at h
    obtain ⟨new_str, hns, h⟩ := h
    simp only [isNotNone, Bool.false_and, Bool.false_eq_true, if_false] at h
    rw [except_bind_ok] at h
    obtain ⟨fv, hfv, h⟩ := h
    have hfv' : false = fv := by injection hfv
    subst hfv'
    simp only [Bool.false_eq_true, if_false] at h
    split at h
    · next hstr =>
      exfalso
      have hcstr : cur_str = "None" := currentValueStr_none_vlan hdm hcs
      obtain ⟨dl, hdl⟩ := newValueStr_vlansV_shape hns
      have hno : pyStr (.vlist (sortValues dl)) = "None" := by
        rw [← hdl, ← hstr, hcstr]
      exact absurd hno (vlist_str_ne_none _)
    · next hstr =>
      rw [except_bind_ok] at h
      obtain ⟨⟨e2r, evsr⟩, hres, h⟩ := h
      rw [except_map_ok] at h
      obtain ⟨⟨e3, evs3⟩, hap, heq⟩ := h
      unfold applyItems at hap
      cases hap
      cases heq
      rw [disp_resolve_base (e := { e with
        data := aset e.data k (Value.vlansV chs),
        updated_items := e.updated_items ++ [k] }) hnip] at hres
      unfold resolve_relations at hres
      rw [except_map_ok] at hres
      obtain ⟨⟨dat', evsd⟩, hri, heqr⟩ := hres
      cases heqr
      refine ⟨chs, ?_, Or.inl rfl⟩
      exact resolveItems_keeps_vlan hch hkpi _ _ hri
        (alookup_aset_self e.data k (.vlansV chs)) hvl
  · rw [hc] at h
    simp only [Option.getD_some] at h
    split at h
    · next hpy =>
      unfold applyItems at h
      cases h
      exact ⟨hs₀, hc, Or.inl (eq_of_beq (show (hs₀ == chs) = true from hpy))⟩
    · next hpy =>
      rw [except_bind_ok] at h
      obtain ⟨cur_str, hcs, h⟩ := h
      rw [except_bind_ok] at h
      obtain ⟨new_str, hns, h⟩ := h
      simp only [isNotNone, pyNumeric, Bool.and_false, Bool.false_eq_true,
        if_false] at h
      rw [except_bind_ok] at h
      obtain ⟨fv, hfv, h⟩ := h
      have hfv' : false = fv := by injection hfv
      subst hfv'
      simp only [Bool.false_eq_true, if_false] at h
      split at h
      · next hstr =>
        unfold applyItems at h
        cases h
        refine ⟨hs₀, hc, Or.inr ⟨cur_str, currentValueStr_vlansV hcs, ?_⟩⟩
        rw [hstr]
        exact newValueStr_vlansV hns
      · next hstr =>
        rw [except_bind_ok] at h
        obtain ⟨⟨e2r, evsr⟩, hres, h⟩ := h
        rw [except_map_ok] at h
        obtain ⟨⟨e3, evs3⟩, hap, heq⟩ := h
        unfold applyItems at hap
        cases hap
        cases heq
        rw [disp_resolve_base (e := { e with
          data := aset e.data k (Value.vlansV chs),
          updated_items := e.updated_items ++ [k] }) hnip] at hres
        unfold resolve_relations at hres
        rw [except_map_ok] at hres
        obtain ⟨⟨dat', evsd⟩, hri, heqr⟩ := hres
        cases heqr
        refine ⟨chs, ?_, Or.inl rfl⟩
        exact resolveItems_keeps_vlan hch hkpi _ _ hri
          (alookup_aset_self e.data k (.vlansV chs)) hvl

set_option maxHeartbeats 1000000 in
/-- C4: updating a VLAN-list attribute wholesale-replaces the previous
collection.  Concretely, updating `tagged_vlans` with the VLAN list
`[{vid: 10}, {vid: 20}]` and then with `[{vid: 20}]` leaves exactly the
one member with vid 20 (no union with the prior members); in general a
compiled VLAN list never holds duplicate handles, and any successful
single-key VLAN-list update ends with the stored collection equal to the
compiled input collection — the prior value only survives through the
equality short-circuits, which require it to render identically. -/
theorem C4_vlan_replace :
    (base_update (specOps 4) 4 {} (newEntity .NBVMInterface)
      (some [("tagged_vlans",
              .vlist [.vdict [("vid", .int 10)], .vdict [("vid", .int 20)]])])
      false Option.none = .ok (c4Inv1, c4E1, [])) ∧
    (base_update (specOps 4) 4 c4Inv1 c4E1
      (some [("tagged_vlans", .vlist [.vdict [("vid", .int 20)]])])
      false Option.none = .ok (c4Inv1, c4E2, [])) ∧
    (alookup c4E2.data "tagged_vlans" = some (.vlansV [1]) ∧
     (c4Inv1.store.get? 1).map (fun ent => alookup ent.data "vid") =
       some (some (.int 20))) ∧
    (∀ ops inv e v inv1 hs evs,
      compile_vlans ops inv e v = .ok (inv1, some (.vlansV hs), evs) →
      hs.Nodup) ∧
    (∀ (ops : InvOps) (fuel : Nat) (inv : Inventory) (e : Entity) (k : String)
       (elems : List Value) (invc : Inventory) (chs : List Nat)
       (cevs : List Ev) (inv' : Inventory) (e' : Entity) (evs : List Ev),
      OpsLawful ops →
      dmGet (typeOf e.tag).data_model k = some .vlanListT →
      strStarts k "primary_ip" = false →
      compile_vlans ops inv e (.vlist elems) =
        .ok (invc, some (.vlansV chs), cevs) →
      ((alookup e.data k).getD Value.none = Value.none ∨
       ∃ hs₀, alookup e.data k = some (.vlansV hs₀)) →
      base_update ops fuel inv e (some [(k, .vlist elems)]) false Option.none =
        .ok (inv', e', evs) →
      inv' = invc ∧
      ∃ hs', alookup e'.data k = some (.vlansV hs') ∧
        (hs' = chs ∨
         ∃ s, displayStrOf fuel invc.store (.vlansV hs') = .ok (some s) ∧
           displayStrOf fuel invc.store (.vlansV chs) = .ok (some s))) := by
  refine ⟨by rfl, by rfl, ⟨by rfl, by rfl⟩, ?_, ?_⟩
  · intro ops inv e v inv1 hs evs h
    unfold compile_vlans at h
    split at h
    · cases h
    · rw [except_bind_ok] at h
      obtain ⟨l, hl, h2⟩ := h
      rw [except_map_ok] at h2
      obtain ⟨⟨i1, hs1, evs1⟩, hloop, heq⟩ := h2
      cases heq
      exact compileVlansLoop_nodup ops e l inv [] hloop List.nodup_nil
  · intro ops fuel inv e k elems invc chs cevs inv' e' evs hlaw hdm hkpi
      hcomp hprior hok
    have hkid : k ≠ "id" := by
      intro hk'
      rw [hk', dmGet_id_none] at hdm
      cases hdm
    have hch : ∀ x ∈ chs, storeTag invc x = some .NBVLAN :=
      (compileVlansLoop_ex_tags hlaw e elems inv []
        (compile_vlans_loop_of_ok hcomp) (by intro x hx; cases hx)).2
    have hpo : parseOne ops fuel inv e Option.none k (.vlist elems) =
        .ok (invc, some (.vlansV chs), cevs) := by
      unfold parseOne
      rw [hdm]
      simp only [isNotNone, Bool.not_true, Bool.false_eq_true, if_false, hkpi]
      rw [hcomp]
      rfl
    have hpar : parseItems ops fuel inv e Option.none [(k, .vlist elems)] =
        .ok (invc, [(k, .vlansV chs)], cevs ++ []) := by
      unfold parseItems
      rw [hpo]
      rfl
    unfold base_update at hok
    dsimp only at hok
    have hid : alookup [(k, Value.vlist elems)] "id" = Option.none := by
      simp [alookup, hkid]
    rw [hid] at hok
    split at hok
    · simp_all
    · rw [except_bind_ok] at hok
      obtain ⟨dn1, _, hok⟩ := hok
      rw [except_bind_ok] at hok
      obtain ⟨dnv, _, hok⟩ := hok
      rw [except_bind_ok] at hok
      obtain ⟨⟨inv3, parsed, evs1⟩, hparse, hok⟩ := hok
      rw [hpar] at hparse
      cases hparse
      rw [except_bind_ok] at hok
      obtain ⟨parsed2, hslug, hok⟩ := hok
      have hp2 := addSlug_single_vlan hdm hslug
      subst hp2
      rw [except_map_ok] at hok
      obtain ⟨⟨e3, evs2⟩, happ, heq⟩ := hok
      cases heq
      exact ⟨rfl, apply_single_vlan hdm hkpi hch hprior happ⟩

set_option maxHeartbeats 400000 in
/-- Witness for `C4_vlan_replace`: the general replace law instantiated
on a concrete interface whose two-member VLAN list is re-supplied as the
same two handles. -/
theorem C4_vlan_replace_witness :
    c4Inv1 = c4Inv1 ∧
    ∃ hs', alookup c4E1.data "tagged_vlans" = some (.vlansV hs') ∧
      (hs' = [0, 1] ∨
       ∃ s, displayStrOf 4 c4Inv1.store (.vlansV hs') = .ok (some s) ∧
         displayStrOf 4 c4Inv1.store (.vlansV [0, 1]) = .ok (some s)) :=
  C4_vlan_replace.2.2.2.2 failOps 4 c4Inv1 c4E1 "tagged_vlans"
    [.obj 0, .obj 1] c4Inv1 [0, 1] [] c4Inv1 c4E1 []
    failOps_lawful rfl rfl rfl (Or.inr ⟨[0, 1], rfl⟩) rfl

theorem insertV_perm (v : Value) :
    ∀ l : List Value, List.Perm (insertV v l) (v :: l) := by
  intro l
  induction l with
  | nil => exact List.Perm.refl _
  | cons w rest ih =>
    unfold insertV
    split
    · exact List.Perm.refl _
    · exact (List.Perm.cons w ih).trans (List.Perm.swap v w rest)

theorem sortValues_perm : ∀ l : List Value, List.Perm (sortValues l) l := by
  intro l
  induction l with
  | nil => exact List.Perm.refl _
  | cons v rest ih =>
    unfold sortValues
    simp only [List.foldr_cons]
    exact (insertV_perm v _).trans (List.Perm.cons v ih)

theorem pyReprList_len :
    ∀ (v : Value) (rest : List Value),
    (pyReprList (v :: rest)).length + 2 =
      (((v :: rest).map fun w => (pyRepr w).length + 2).sum) := by
  intro v rest
  induction rest generalizing v with
  | nil => simp [pyReprList]
  | cons w rest ih =>
    have hstep : pyReprList (v :: w :: rest) =
        pyRepr v ++ ", " ++ pyReprList (w :: rest) := rfl
    rw [hstep]
    simp only [String.length_append, List.map_cons, List.sum_cons]
    have h2 := ih w
    have hc : (", " : String).length = 2 := rfl
    simp only [List.map_cons, List.sum_cons] at h2
    omega

theorem render_sorted_len {d : Value} (hd : 0 < (pyRepr d).length)
    (ds : List Value) :
    (pyStr (.vlist (sortValues ds))).length <
      (pyStr (.vlist (sortValues (d :: ds)))).length := by
  have hlen : ∀ L : List Value,
      (pyStr (.vlist L)).length = (pyReprList L).length + 2 := by
    intro L
    show ("[" ++ pyReprList L ++ "]").length = _
    rw [String.length_append, String.length_append]
    have h1 : ("[" : String).length = 1 := rfl
    have h2 : ("]" : String).length = 1 := rfl
    omega
  rw [hlen, hlen]
  have hS : ∀ (M N : List Value), List.Perm M N →
      (M.map fun w => (pyRepr w).length + 2).sum =
        (N.map fun w => (pyRepr w).length + 2).sum := by
    intro M N hp
    exact (hp.map _).sum_eq
  cases hds : ds with
  | nil =>
    have h1 : sortValues ([] : List Value) = [] := rfl
    have h2 : sortValues [d] = [d] := rfl
    rw [h1, h2]
    have h3 : (pyReprList [d]).length = (pyRepr d).length := rfl
    have h4 : (pyReprList ([] : List Value)).length = 0 := rfl
    omega
  | cons e0 tl =>
    -- both sorted lists are nonempty
    have hp0 := sortValues_perm (e0 :: tl)
    have hp1 := sortValues_perm (d :: e0 :: tl)
    obtain ⟨v0, r0, he0⟩ : ∃ v r, sortValues (e0 :: tl) = v :: r := by
      cases hq : sortValues (e0 :: tl) with
      | nil =>
        have := hp0.length_eq
        rw [hq] at this
        cases this
      | cons v r => exact ⟨v, r, rfl⟩
    obtain ⟨v1, r1, he1⟩ : ∃ v r, sortValues (d :: e0 :: tl) = v :: r := by
      cases hq : sortValues (d :: e0 :: tl) with
      | nil =>
        have := hp1.length_eq
        rw [hq] at this
        cases this
      | cons v r => exact ⟨v, r, rfl⟩
    rw [he0, he1]
    have hl0 := pyReprList_len v0 r0
    have hl1 := pyReprList_len v1 r1
    have hs0 : ((v0 :: r0).map fun w => (pyRepr w).length + 2).sum =
        ((e0 :: tl).map fun w => (pyRepr w).length + 2).sum := by
      have := he0 ▸ hp0
      exact hS _ _ this
    have hs1 : ((v1 :: r1).map fun w => (pyRepr w).length + 2).sum =
        ((d :: e0 :: tl).map fun w => (pyRepr w).length + 2).sum := by
      have := he1 ▸ hp1
      exact hS _ _ this
    have hsum : ((d :: e0 :: tl).map fun w => (pyRepr w).length + 2).sum =
        ((pyRepr d).length + 2) +
          ((e0 :: tl).map fun w => (pyRepr w).length + 2).sum := by
      simp [List.map_cons, List.sum_cons]
    omega

theorem render_sorted_ne {d : Value} (hd : 0 < (pyRepr d).length)
    (ds : List Value) :
    pyStr (.vlist (sortValues (d :: ds))) ≠ pyStr (.vlist (sortValues ds)) := by
  intro h
  have := congrArg String.length h
  exact absurd this (Nat.ne_of_gt (render_sorted_len hd ds))

theorem mapM_display_cons {fuel : Nat} {store : List Entity} {h : Nat}
    {hs : List Nat} {d : Value} {ds : List Value}
    (h1 : displayOfHandle fuel store h = .ok d)
    (h2 : hs.mapM (displayOfHandle fuel store) = .ok ds) :
    (h :: hs).mapM (displayOfHandle fuel store) = .ok (d :: ds) := by
  rw [List.mapM_cons, h1, h2]
  rfl

theorem pyInList_head (a : String) (ds : List Value) :
    pyInList (.str a) (.str a :: ds) = true := by
  unfold pyInList
  rw [List.any_cons]
  have h1 : pyEq (.str a) (.str a) = true := by
    show (a == a) = true
    exact beq_self_eq_true a
  rw [h1]
  rfl

theorem filter_remove_id {h : Nat} :
    ∀ hs : List Nat, h ∉ hs →
    (hs.filter fun x => !(([some h] : List (Option Nat)).contains (some x)))
      = hs := by
  intro hs
  induction hs with
  | nil => intro _; rfl
  | cons y ys ih =>
    intro hnm
    have hy : y ≠ h := fun he => hnm (he ▸ List.mem_cons_self _ _)
    have hys : h ∉ ys := fun hm => hnm (List.mem_cons_of_mem _ hm)
    have hp : (!(([some h] : List (Option Nat)).contains (some y))) = true := by
      simp [List.contains, hy]
    rw [List.filter_cons, if_pos hp, ih hys]

theorem tag_add_present_noop (ops : InvOps) (fuel : Nat) (inv : Inventory)
    (e : Entity) (a : String) (hs₀ : List Nat) (ds₀ : List Value)
    (hdmA : ((typeOf e.tag).data_model.any fun kd => kd.2 = .tagListT) = true)
    (hcur : alookup e.data "tags" = some (.tagsV hs₀))
    (hds : hs₀.mapM (displayOfHandle fuel inv.store) = .ok ds₀)
    (hpresent : pyInList (.str a) ds₀ = true) :
    update_tags ops fuel inv e (.str a) false = .ok (inv, e, []) := by
  have hcth : currentTagHandles e = .ok hs₀ := by
    unfold currentTagHandles
    rw [hcur]
    rfl
  have hgt : get_tags fuel inv.store e = .ok ds₀ := by
    unfold get_tags
    rw [hcur]
    exact hds
  have hloop : compileTagsLoop ops inv ds₀ false [.str a] =
      .ok (inv, [], [], []) := by
    unfold compileTagsLoop
    rw [hpresent]
    rfl
  have hsan : sanitizeTags fuel inv.store (.str a) = .ok [.str a] := rfl
  have hct : compile_tags ops fuel inv e (.str a) false =
      .ok (inv, some (.tagsV hs₀), []) := by
    unfold compile_tags
    rw [hdmA]
    simp only [isNotNone, Bool.not_true, Bool.or_self, Bool.false_eq_true,
      if_false]
    rw [hsan]
    dsimp only [Except.bind]
    rw [hgt]
    dsimp only [Except.bind]
    rw [hloop]
    dsimp only [Except.bind]
    rw [hcth]
    rfl
  unfold update_tags
  rw [hdmA]
  simp only [isNotNone, Bool.not_true, Bool.or_self, Bool.false_eq_true,
    if_false]
  rw [hcth]
  dsimp only [Except.bind]
  rw [hct]
  dsimp only [Except.bind]
  rw [hds]
  dsimp only [Except.bind, Except.map]
  simp only [ne_eq, not_true, if_false]

theorem tag_add_remove_restore (ops : InvOps) (fuel : Nat)
    (inv invA : Inventory) (e : Entity) (a : String) (hs₀ : List Nat)
    (ds₀ : List Value) (h : Nat) (evsA : List Ev)
    (hdmA : ((typeOf e.tag).data_model.any fun kd => kd.2 = .tagListT) = true)
    (hcur : alookup e.data "tags" = some (.tagsV hs₀))
    (hds : hs₀.mapM (displayOfHandle fuel inv.store) = .ok ds₀)
    (habsent : pyInList (.str a) ds₀ = false)
    (hadd : ops.add_update_object inv .NBTag (.vdict [("name", .str a)])
      Option.none = .ok (invA, h, evsA))
    (hdispa : displayOfHandle fuel invA.store h = .ok (.str a))
    (hdisps : hs₀.mapM (displayOfHandle fuel invA.store) = .ok ds₀)
    (hnotin : h ∉ hs₀)
    (hfind : get_by_data invA .NBTag (.vdict [("name", .str a)]) = some h) :
    ∃ eA evs1 e' evs2,
      update_tags ops fuel inv e (.str a) false = .ok (invA, eA, evs1) ∧
      alookup eA.data "tags" = some (.tagsV (h :: hs₀)) ∧
      update_tags ops fuel invA eA (.str a) true = .ok (invA, e', evs2) ∧
      alookup e'.data "tags" = some (.tagsV hs₀) := by
  have hd : 0 < (pyRepr (.str a)).length := by
    show 0 < ("'" ++ a ++ "'").length
    rw [String.length_append, String.length_append]
    have h1 : ("'" : String).length = 1 := rfl
    omega
  have hcth : currentTagHandles e = .ok hs₀ := by
    unfold currentTagHandles
    rw [hcur]
    rfl
  have hgt : get_tags fuel inv.store e = .ok ds₀ := by
    unfold get_tags
    rw [hcur]
    exact hds
  have hsan : ∀ st, sanitizeTags fuel st (.str a) = .ok [.str a] :=
    fun _ => rfl
  have hloopA : compileTagsLoop ops inv ds₀ false [.str a] =
      .ok (invA, [h], [], evsA ++ []) := by
    unfold compileTagsLoop
    rw [habsent]
    dsimp only
    rw [hadd]
    dsimp only [Except.bind]
    rfl
  have hctA : compile_tags ops fuel inv e (.str a) false =
      .ok (invA, some (.tagsV (h :: hs₀)), evsA ++ []) := by
    unfold compile_tags
    rw [hdmA]
    simp only [isNotNone, Bool.not_true, Bool.or_self, Bool.false_eq_true,
      if_false]
    rw [hsan]
    dsimp only [Except.bind]
    rw [hgt]
    dsimp only [Except.bind]
    rw [hloopA]
    dsimp only [Except.bind]
    rw [hcth]
    rfl
  have hnewA := mapM_display_cons hdispa hdisps
  have hAdd : update_tags ops fuel inv e (.str a) false =
      .ok (invA,
        { e with data := aset e.data "tags" (.tagsV (h :: hs₀)),
                 updated_items := e.updated_items ++ ["tags"] },
        (evsA ++ []) ++ [.changeLog ("tags changed to " ++
          pyStr (.vlist (sortValues (.str a :: ds₀))))]) := by
    unfold update_tags
    rw [hdmA]
    simp only [isNotNone, Bool.not_true, Bool.or_self, Bool.false_eq_true,
      if_false]
    rw [hcth]
    dsimp only [Except.bind]
    rw [hctA]
    dsimp only [Except.bind]
    rw [hdisps]
    dsimp only [Except.bind]
    rw [hnewA]
    dsimp only [Except.bind, Except.map]
    rw [if_pos (Ne.symm (render_sorted_ne hd ds₀))]
  -- the remove step, on the entity produced by the add
  have hcthA : currentTagHandles
      { e with data := aset e.data "tags" (.tagsV (h :: hs₀)),
               updated_items := e.updated_items ++ ["tags"] } =
      .ok (h :: hs₀) := by
    unfold currentTagHandles
    dsimp only
    rw [alookup_aset_self]
    rfl
  have hgtA : get_tags fuel invA.store
      { e with data := aset e.data "tags" (.tagsV (h :: hs₀)),
               updated_items := e.updated_items ++ ["tags"] } =
      .ok (.str a :: ds₀) := by
    unfold get_tags
    dsimp only
    rw [alookup_aset_self]
    exact hnewA
  have hloopR : compileTagsLoop ops invA (.str a :: ds₀) true [.str a] =
      .ok (invA, [], [some h], []) := by
    unfold compileTagsLoop
    rw [pyInList_head]
    dsimp only
    rw [hfind]
    rfl
  have hph : (!(([some h] : List (Option Nat)).contains (some h))) = false := by
    simp [List.contains]
  have hctR : compile_tags ops fuel invA
      { e with data := aset e.data "tags" (.tagsV (h :: hs₀)),
               updated_items := e.updated_items ++ ["tags"] }
      (.str a) true = .ok (invA, some (.tagsV hs₀), []) := by
    unfold compile_tags
    dsimp only
    rw [hdmA]
    simp only [isNotNone, Bool.not_true, Bool.or_self, Bool.false_eq_true,
      if_false]
    rw [hsan]
    dsimp only [Except.bind]
    rw [hgtA]
    dsimp only [Except.bind]
    rw [hloopR]
    dsimp only [Except.bind]
    rw [hcthA]
    dsimp only [Except.map]
    rw [List.filter_cons]
    rw [hph]
    simp only [Bool.false_eq_true, if_false]
    rw [filter_remove_id hs₀ hnotin]
    rfl
  have hRem : update_tags ops fuel invA
      { e with data := aset e.data "tags" (.tagsV (h :: hs₀)),
               updated_items := e.updated_items ++ ["tags"] }
      (.str a) true =
      .ok (invA,
        { e with data := aset (aset e.data "tags" (.tagsV (h :: hs₀)))
                   "tags" (.tagsV hs₀),
                 updated_items := (e.updated_items ++ ["tags"]) ++ ["tags"] },
        [] ++ [.changeLog ("tags changed to " ++
          pyStr (.vlist (sortValues ds₀)))]) := by
    unfold update_tags
    dsimp only
    rw [hdmA]
    simp only [isNotNone, Bool.not_true, Bool.or_self, Bool.false_eq_true,
      if_false]
    rw [hcthA]
    dsimp only [Except.bind]
    rw [hctR]
    dsimp only [Except.bind]
    rw [hnewA]
    dsimp only [Except.bind]
    rw [hdisps]
    dsimp only [Except.bind, Except.map]
    rw [if_pos (render_sorted_ne hd ds₀)]
  refine ⟨_, _, _, _, hAdd, ?_, hRem, ?_⟩
  · exact alookup_aset_self _ _ _
  · exact alookup_aset_self _ _ _

/-- C5 counterexample: when the added name is already present, `remove`
after `add` does not yield the original tag set — `add` is a no-op, and
`remove` then deletes the pre-existing tag: an interface with tag "x"
ends with no tags at all instead of `{"x"}`. -/
theorem C5_counterexample :
    update_tags failOps 3 c5Inv c5Ent (.str "x") false =
      .ok (c5Inv, c5Ent, []) ∧
    update_tags failOps 3 c5Inv c5Ent (.str "x") true =
      .ok (c5Inv,
        { tag := .NBVMInterface, data := [("tags", .tagsV [])],
          updated_items := ["tags"] },
        [.changeLog "tags changed to []"]) ∧
    alookup c5Ent.data "tags" = some (.tagsV [0]) :=
  ⟨rfl, rfl, rfl⟩

/-- C5 (corrected): adding a tag name already present in the collection
is a complete no-op that records no change, and removing a name after
adding it yields the original tag collection provided the name was not
already present (the get-or-created tag renders as the bare name, the
existing members keep their display names across the creation, and the
natural-key lookup of the remove pass finds the tag just added). -/
theorem C5_tag_set_laws :
    (∀ (ops : InvOps) (fuel : Nat) (inv : Inventory) (e : Entity)
       (a : String) (hs₀ : List Nat) (ds₀ : List Value),
      ((typeOf e.tag).data_model.any fun kd => kd.2 = .tagListT) = true →
      alookup e.data "tags" = some (.tagsV hs₀) →
      hs₀.mapM (displayOfHandle fuel inv.store) = .ok ds₀ →
      pyInList (.str a) ds₀ = true →
      update_tags ops fuel inv e (.str a) false = .ok (inv, e, [])) ∧
    (∀ (ops : InvOps) (fuel : Nat) (inv invA : Inventory) (e : Entity)
       (a : String) (hs₀ : List Nat) (ds₀ : List Value) (h : Nat)
       (evsA : List Ev),
      ((typeOf e.tag).data_model.any fun kd => kd.2 = .tagListT) = true →
      alookup e.data "tags" = some (.tagsV hs₀) →
      hs₀.mapM (displayOfHandle fuel inv.store) = .ok ds₀ →
      pyInList (.str a) ds₀ = false →
      ops.add_update_object inv .NBTag (.vdict [("name", .str a)])
        Option.none = .ok (invA, h, evsA) →
      displayOfHandle fuel invA.store h = .ok (.str a) →
      hs₀.mapM (displayOfHandle fuel invA.store) = .ok ds₀ →
      h ∉ hs₀ →
      get_by_data invA .NBTag (.vdict [("name", .str a)]) = some h →
      ∃ eA evs1 e' evs2,
        update_tags ops fuel inv e (.str a) false = .ok (invA, eA, evs1) ∧
        alookup eA.data "tags" = some (.tagsV (h :: hs₀)) ∧
        update_tags ops fuel invA eA (.str a) true = .ok (invA, e', evs2) ∧
        alookup e'.data "tags" = some (.tagsV hs₀)) :=
  ⟨tag_add_present_noop, tag_add_remove_restore⟩

/-- Witness for `C5_tag_set_laws`: the interface carrying tag "x" —
re-adding "x" is a no-op; adding fresh "y" and then removing it restores
the original single-member collection. -/
theorem C5_tag_set_laws_witness :
    update_tags (specOps 3) 3 c5Inv c5Ent (.str "x") false =
      .ok (c5Inv, c5Ent, []) ∧
    ∃ eA evs1 e' evs2,
      update_tags (specOps 3) 3 c5Inv c5Ent (.str "y") false =
        .ok (c5InvA, eA, evs1) ∧
      alookup eA.data "tags" = some (.tagsV [1, 0]) ∧
      update_tags (specOps 3) 3 c5InvA eA (.str "y") true =
        .ok (c5InvA, e', evs2) ∧
      alookup e'.data "tags" = some (.tagsV [0]) :=
  ⟨C5_tag_set_laws.1 (specOps 3) 3 c5Inv c5Ent "x" [0] [.str "x"]
     rfl rfl rfl rfl,
   C5_tag_set_laws.2 (specOps 3) 3 c5Inv c5InvA c5Ent "y" [0] [.str "x"] 1 []
     rfl rfl rfl rfl rfl rfl rfl (by decide) rfl⟩

theorem alookup_mem {l : List (String × Value)} {k : String} {v : Value}
    (h : alookup l k = some v) : (k, v) ∈ l := by
  induction l with
  | nil => cases h
  | cons p rest ih =>
    obtain ⟨k0, v0⟩ := p
    unfold alookup at h
    by_cases hk : k0 = k
    · rw [if_pos hk] at h
      cases h
      subst hk
      exact List.mem_cons_self _ _
    · rw [if_neg hk] at h
      exact List.mem_cons_of_mem _ (ih h)

theorem aset_same : ∀ (d : List (String × Value)) (k : String) (v : Value),
    alookup d k = some v → aset d k v = d := by
  intro d
  induction d with
  | nil => intro k v h; cases h
  | cons p rest ih =>
    intro k v h
    obtain ⟨k0, v0⟩ := p
    unfold alookup at h
    by_cases hk : k0 = k
    · rw [if_pos hk] at h
      cases h
      subst hk
      unfold aset
      rw [if_pos rfl]
    · rw [if_neg hk] at h
      unfold aset
      rw [if_neg hk, ih k v h]

theorem aset_mem {d : List (String × Value)} {k : String} {v : Value}
    {p : String × Value} (h : p ∈ aset d k v) : p ∈ d ∨ p = (k, v) := by
  induction d with
  | nil =>
    unfold aset at h
    rcases List.mem_singleton.mp h with h'
    exact Or.inr h'
  | cons q rest ih =>
    obtain ⟨k0, v0⟩ := q
    unfold aset at h
    split at h
    · rcases List.mem_cons.mp h with h' | h'
      · exact Or.inr h'
      · exact Or.inl (List.mem_cons_of_mem _ h')
    · rcases List.mem_cons.mp h with h' | h'
      · exact Or.inl (h' ▸ List.mem_cons_self _ _)
      · rcases ih h' with h'' | h''
        · exact Or.inl (List.mem_cons_of_mem _ h'')
        · exact Or.inr h''

theorem aset_keys_nodup {d : List (String × Value)} {k : String} {v : Value}
    (h : (d.map Prod.fst).Nodup) : ((aset d k v).map Prod.fst).Nodup := by
  induction d with
  | nil => simp [aset]
  | cons q rest ih =>
    obtain ⟨k0, v0⟩ := q
    unfold aset
    split
    · next hk =>
      subst hk
      simpa using h
    · simp only [List.map_cons, List.nodup_cons] at h ⊢
      refine ⟨?_, ih h.2⟩
      intro hm
      apply h.1
      rcases List.mem_map.mp hm with ⟨p, hp, hfst⟩
      rcases aset_mem hp with hp' | hp'
      · exact List.mem_map.mpr ⟨p, hp', hfst⟩
      · exfalso
        next hk =>
        exact hk (by rw [← hfst, hp'])

theorem pyEq_refl_prim {v : Value} (h : primVal v = true) :
    pyEq v v = true := by
  cases v <;> simp_all [primVal, pyEq]

theorem parseOne_prim_stable {e e' : Entity} {k : String} {v : Value}
    (hp : primItem e.tag (k, v)) (hte : e'.tag = e.tag) (ops : InvOps)
    (fuel : Nat) (inv : Inventory) (src : Option Nat) (ops' : InvOps)
    (fuel' : Nat) (inv' : Inventory) (src' : Option Nat) :
    parseOne ops' fuel' inv' e' src' k v =
      (parseOne ops fuel inv e src k v).map fun t => (inv', t.2.1, t.2.2) := by
  obtain ⟨dt, hdt, hprim, hpip, hv⟩ := hp
  unfold parseOne
  rw [hte, hdt]
  dsimp only
  cases hnn : isNotNone v with
  | false =>
    simp only [hnn, Bool.not_false, if_true]
    rfl
  | true =>
    simp only [hnn, Bool.not_true, Bool.false_eq_true, if_false, hpip]
    cases dt
    case ref rt => nomatch hprim
    case tagListT => nomatch hprim
    case vlanListT => nomatch hprim
    case bounded n =>
      cases v
      case none => nomatch hnn
      case obj h => nomatch hv
      case vlist l => nomatch hv
      case vdict d => nomatch hv
      case tagsV hs => nomatch hv
      case vlansV hs => nomatch hv
      case ipnet s => nomatch hv
      case str s =>
        by_cases hk : k = "slug"
        · simp only [if_pos hk]
          cases hfs : format_slug (truncStr n s) n <;> rfl
        · simp only [if_neg hk]
          rfl
      case int m => rfl
      case bool b => rfl
      case float q => rfl
    case strT =>
      cases v
      case none => nomatch hnn
      case obj h => nomatch hv
      case vlist l => nomatch hv
      case vdict d => nomatch hv
      case tagsV hs => nomatch hv
      case vlansV hs => nomatch hv
      case ipnet s => nomatch hv
      case str s => rfl
      case int m => rfl
      case bool b => rfl
      case float q => rfl
    case intT =>
      cases v
      case none => nomatch hnn
      case obj h => nomatch hv
      case vlist l => nomatch hv
      case vdict d => nomatch hv
      case tagsV hs => nomatch hv
      case vlansV hs => nomatch hv
      case ipnet s => nomatch hv
      case str s => rfl
      case int m => rfl
      case bool b => rfl
      case float q => rfl
    case boolT =>
      cases v
      case none => nomatch hnn
      case obj h => nomatch hv
      case vlist l => nomatch hv
      case vdict d => nomatch hv
      case tagsV hs => nomatch hv
      case vlansV hs => nomatch hv
      case ipnet s => nomatch hv
      case str s => rfl
      case int m => rfl
      case bool b => rfl
      case float q => rfl
    case floatT =>
      cases v
      case none => nomatch hnn
      case obj h => nomatch hv
      case vlist l => nomatch hv
      case vdict d => nomatch hv
      case tagsV hs => nomatch hv
      case vlansV hs => nomatch hv
      case ipnet s => nomatch hv
      case str s => rfl
      case int m => rfl
      case bool b => rfl
      case float q => rfl
    case objT =>
      cases v
      case none => nomatch hnn
      case obj h => nomatch hv
      case vlist l => nomatch hv
      case vdict d => nomatch hv
      case tagsV hs => nomatch hv
      case vlansV hs => nomatch hv
      case ipnet s => nomatch hv
      case str s => rfl
      case int m => rfl
      case bool b => rfl
      case float q => rfl
    case choice lits refs =>
      cases v
      case none => nomatch hnn
      case obj h => nomatch hv
      case vlist l => nomatch hv
      case vdict d => nomatch hv
      case tagsV hs => nomatch hv
      case vlansV hs => nomatch hv
      case ipnet s => nomatch hv
      case str s =>
        cases hc : lits.any fun t => pyEq (.str s) (.str t) <;>
          simp only [hc, Bool.false_eq_true, if_false, if_true] <;> rfl
      case int m =>
        cases hc : lits.any fun t => pyEq (.int m) (.str t) <;>
          simp only [hc, Bool.false_eq_true, if_false, if_true] <;> rfl
      case bool b =>
        cases hc : lits.any fun t => pyEq (.bool b) (.str t) <;>
          simp only [hc, Bool.false_eq_true, if_false, if_true] <;> rfl
      case float q =>
        cases hc : lits.any fun t => pyEq (.float q) (.str t) <;>
          simp only [hc, Bool.false_eq_true, if_false, if_true] <;> rfl

theorem parseOne_prim_changeCount {e : Entity} {k : String} {v : Value}
    (hp : primItem e.tag (k, v)) {ops : InvOps} {fuel : Nat}
    {inv : Inventory} {src : Option Nat} {i2 : Inventory}
    {ov : Option Value} {evs : List Ev}
    (h : parseOne ops fuel inv e src k v = .ok (i2, ov, evs)) :
    changeCount evs = 0 := by
  obtain ⟨dt, hdt, hprim, hpip, hv⟩ := hp
  unfold parseOne at h
  rw [hdt] at h
  dsimp only at h
  rw [hpip] at h
  simp only [Bool.false_eq_true, if_false] at h
  split at h
  · cases h
    rfl
  · split at h
    all_goals try (simp only [primDT, Bool.false_eq_true] at hprim)
    all_goals try ((cases h) <;> rfl)
    all_goals try split at h
    all_goals try ((cases h) <;> rfl)
    all_goals try split at h
    all_goals try ((cases h) <;> rfl)
    all_goals try split at h
    all_goals ((cases h) <;> rfl)

theorem parseOne_prim_val {e : Entity} {k : String} {v : Value}
    (hp : primItem e.tag (k, v)) {ops : InvOps} {fuel : Nat}
    {inv : Inventory} {src : Option Nat} {i2 : Inventory}
    {ov : Option Value} {evs : List Ev}
    (h : parseOne ops fuel inv e src k v = .ok (i2, ov, evs)) :
    ∀ pv, ov = some pv → primVal pv = true := by
  obtain ⟨dt, hdt, hprim, hpip, hv⟩ := hp
  unfold parseOne at h
  rw [hdt] at h
  dsimp only at h
  rw [hpip] at h
  simp only [Bool.false_eq_true, if_false] at h
  split at h
  · cases h
    intro pv hpv
    cases hpv
  · split at h
    all_goals try (simp only [primDT, Bool.false_eq_true] at hprim)
    all_goals try split at h
    all_goals try split at h
    all_goals try split at h
    all_goals
      ((cases h) <;>
        (intro pv hpv
         cases hpv <;> first | exact hv | rfl))

theorem parseItems_prim_stable {e e' : Entity} (hte : e'.tag = e.tag) :
    ∀ (dd : List (String × Value)), (∀ p ∈ dd, primItem e.tag p) →
    ∀ (ops : InvOps) (fuel : Nat) (inv : Inventory) (src : Option Nat)
      (ops' : InvOps) (fuel' : Nat) (inv' : Inventory) (src' : Option Nat),
    parseItems ops' fuel' inv' e' src' dd =
      (parseItems ops fuel inv e src dd).map fun t => (inv', t.2.1, t.2.2) := by
  intro dd
  induction dd with
  | nil => intro _ ops fuel inv src ops' fuel' inv' src'; rfl
  | cons p rest ih =>
    obtain ⟨k, v⟩ := p
    intro hgood ops fuel inv src ops' fuel' inv' src'
    have hg1 : primItem e.tag (k, v) := hgood _ (List.mem_cons_self _ _)
    have hgr : ∀ q ∈ rest, primItem e.tag q :=
      fun q hq => hgood q (List.mem_cons_of_mem _ hq)
    unfold parseItems
    rw [parseOne_prim_stable hg1 hte ops fuel inv src ops' fuel' inv' src']
    cases hpo : parseOne ops fuel inv e src k v with
    | error err => rfl
    | ok t =>
      obtain ⟨iA, ov, evsA⟩ := t
      dsimp only [Except.map, Except.bind]
      rw [ih hgr ops fuel iA src ops' fuel' inv' src']
      cases hrec : parseItems ops fuel iA e src rest with
      | error err => rfl
      | ok t2 => rfl

theorem parseItems_prim_props {e : Entity} :
    ∀ (dd : List (String × Value)), (∀ p ∈ dd, primItem e.tag p) →
    ∀ (ops : InvOps) (fuel : Nat) (inv : Inventory) (src : Option Nat)
      (inv2 : Inventory) (P : List (String × Value)) (E : List Ev),
    parseItems ops fuel inv e src dd = .ok (inv2, P, E) →
    inv2 = inv ∧ ((P.map Prod.fst).Sublist (dd.map Prod.fst)) ∧
    (∀ p ∈ P, primItem e.tag p) ∧ changeCount E = 0 := by
  intro dd
  induction dd with
  | nil =>
    intro _ ops fuel inv src inv2 P E h
    unfold parseItems at h
    cases h
    refine ⟨rfl, List.Sublist.refl _, ?_, rfl⟩
    intro p hp
    cases hp
  | cons q rest ih =>
    obtain ⟨k, v⟩ := q
    intro hgood ops fuel inv src inv2 P E h
    have hg1 := hgood _ (List.mem_cons_self _ _)
    have hgr : ∀ p ∈ rest, primItem e.tag p :=
      fun p hp => hgood p (List.mem_cons_of_mem _ hp)
    unfold parseItems at h
    rw [except_bind_ok] at h
    obtain ⟨⟨iA, ov, evsA⟩, hpo, h2⟩ := h
    rw [except_map_ok] at h2
    obtain ⟨⟨iB, pd, evsB⟩, hrec, heq⟩ := h2
    cases heq
    have hiA : iA = inv := by
      have hst := parseOne_prim_stable hg1 rfl ops fuel inv src ops fuel inv src
      rw [hpo] at hst
      have hst' : (Except.ok (iA, ov, evsA) :
          Except Err (Inventory × Option Value × List Ev)) =
          .ok (inv, ov, evsA) := hst
      injection hst' with h1
      exact congrArg Prod.fst h1
    subst hiA
    obtain ⟨hiB, hsub, hvals, hcc⟩ := ih hgr ops fuel _ src _ _ _ hrec
    subst hiB
    refine ⟨rfl, ?_, ?_, ?_⟩
    · cases ov with
      | none => exact hsub.trans (List.sublist_cons_self _ _)
      | some pv => exact List.Sublist.cons₂ _ hsub
    · intro p hp
      cases ov with
      | none => exact hvals p hp
      | some pv =>
        rcases List.mem_cons.mp hp with hp' | hp'
        · subst hp'
          obtain ⟨dt, hdt, hprim, hpip, h5⟩ := hgood _ (List.mem_cons_self _ _)
          exact ⟨dt, hdt, hprim, hpip, parseOne_prim_val hg1 hpo pv rfl⟩
        · exact hvals p hp'
    · rw [changeCount_append, hcc, parseOne_prim_changeCount hg1 hpo]

theorem resolveOne_noop {fuel : Nat} {inv : Inventory} {e : Entity}
    {dat : List (String × Value)} {k : String} {dt : DataType}
    (hpi : strStarts k "primary_ip" = true →
      (alookup dat k).getD Value.none = Value.none)
    (href : ∀ rt, dt = .ref rt →
      (alookup dat k).getD Value.none = Value.none)
    (htag : dt = .tagListT →
      (alookup dat k).getD Value.none = Value.none ∨
        alookup dat k = some (.tagsV []))
    (hvlan : dt = .vlanListT →
      (alookup dat k).getD Value.none = Value.none ∨
        alookup dat k = some (.vlansV [])) :
    resolveOne fuel inv e dat k dt = .ok (dat, []) := by
  unfold resolveOne
  dsimp only
  cases hnn : isNotNone ((alookup dat k).getD Value.none) with
  | false =>
    simp only [hnn, Bool.not_false, if_true]
  | true =>
    have hpf : strStarts k "primary_ip" = false := by
      cases hq : strStarts k "primary_ip"
      · rfl
      · rw [hpi hq] at hnn
        simp [isNotNone] at hnn
    simp only [hnn, Bool.not_true, Bool.false_eq_true, if_false, hpf]
    cases dt
    case ref rt =>
      rw [href rt rfl] at hnn
      simp [isNotNone] at hnn
    case tagListT =>
      rcases htag rfl with hc | hc
      · rw [hc] at hnn
        simp [isNotNone] at hnn
      · rw [hc]
        show (Except.ok (aset dat k (Value.tagsV []), ([] : List Ev)) :
          Except Err (List (String × Value) × List Ev)) = .ok (dat, [])
        rw [aset_same dat k (.tagsV []) hc]
    case vlanListT =>
      rcases hvlan rfl with hc | hc
      · rw [hc] at hnn
        simp [isNotNone] at hnn
      · rw [hc]
        show (Except.ok (aset dat k (Value.vlansV []), ([] : List Ev)) :
          Except Err (List (String × Value) × List Ev)) = .ok (dat, [])
        rw [aset_same dat k (.vlansV []) hc]
    all_goals rfl

theorem resolveItems_noop {fuel : Nat} {inv : Inventory} {e : Entity}
    {dat : List (String × Value)} :
    ∀ items : List (String × DataType),
    (∀ p ∈ items,
      (strStarts p.1 "primary_ip" = true →
        (alookup dat p.1).getD Value.none = Value.none) ∧
      (∀ rt, p.2 = .ref rt →
        (alookup dat p.1).getD Value.none = Value.none) ∧
      (p.2 = .tagListT →
        (alookup dat p.1).getD Value.none = Value.none ∨
          alookup dat p.1 = some (.tagsV [])) ∧
      (p.2 = .vlanListT →
        (alookup dat p.1).getD Value.none = Value.none ∨
          alookup dat p.1 = some (.vlansV []))) →
    resolveItems fuel inv e dat items = .ok (dat, []) := by
  intro items
  induction items with
  | nil => intro _; rfl
  | cons q rest ih =>
    obtain ⟨k, dt⟩ := q
    intro hc
    obtain ⟨h1, h2, h3, h4⟩ := hc _ (List.mem_cons_self _ _)
    unfold resolveItems
    rw [resolveOne_noop h1 h2 h3 h4]
    dsimp only [Except.bind]
    rw [ih fun p hp => hc p (List.mem_cons_of_mem _ hp)]
    rfl

theorem disp_resolve_noop {fuel : Nat} {inv : Inventory} {e : Entity}
    (hip : e.tag ≠ .NBIPAddress) (hrf : relationFree e) :
    disp_resolve fuel inv e = .ok (e, []) := by
  rw [disp_resolve_base hip]
  unfold resolve_relations
  rw [resolveItems_noop (typeOf e.tag).data_model hrf]
  rfl

theorem relationFree_store {e : Entity} {k : String} {pv : Value}
    {dt : DataType} (hrf : relationFree e)
    (hdt : dmGet (typeOf e.tag).data_model k = some dt)
    (hprim : primDT dt = true)
    (hpip : strStarts k "primary_ip" = false) (ui : List String) :
    relationFree { e with data := aset e.data k pv, updated_items := ui } := by
  intro p hp
  obtain ⟨p1, p2⟩ := p
  dsimp only at hp ⊢
  by_cases hk : p1 = k
  · subst hk
    have hpdt : p2 = dt := by
      have h2 := dmGet_unique (dm_keys_nodup e.tag) hp
      rw [hdt] at h2
      injection h2 with h3
      exact h3.symm
    subst hpdt
    refine ⟨?_, ?_, ?_, ?_⟩
    · intro hq
      rw [hpip] at hq
      nomatch hq
    · intro rt hr
      rw [hr] at hprim
      nomatch hprim
    · intro ht
      rw [ht] at hprim
      nomatch hprim
    · intro ht
      rw [ht] at hprim
      nomatch hprim
  · have heq : alookup (aset e.data k pv) p1 = alookup e.data p1 :=
      alookup_aset_ne _ _ (fun hh => hk hh.symm)
    have hc := hrf (p1, p2) hp
    dsimp only at hc
    rw [heq]
    exact hc

theorem applyItems_idem {fuel : Nat} {inv : Inventory} {dn : String} :
    ∀ (items : List (String × Value)) (e e' : Entity) (evs : List Ev),
    (∀ p ∈ items, primItem e.tag p ∧ pyEq p.2 p.2 = true) →
    (items.map Prod.fst).Nodup →
    relationFree e →
    e.tag ≠ .NBIPAddress →
    applyItems fuel inv dn e items = .ok (e', evs) →
    relationFree e' ∧ e'.tag = e.tag ∧
    (∀ q, ¬ q ∈ items.map Prod.fst →
      alookup e'.data q = alookup e.data q) ∧
    (∀ (dn' : String) (x : Entity), x.tag = e'.tag → x.data = e'.data →
      applyItems fuel inv dn' x items = .ok (x, [])) := by
  intro items
  induction items with
  | nil =>
    intro e e' evs _ _ hrf _ h
    unfold applyItems at h
    cases h
    exact ⟨hrf, rfl, fun q _ => rfl, fun dn' x _ _ => rfl⟩
  | cons hd rest ih =>
    obtain ⟨k, pv⟩ := hd
    intro e e' evs hgood hnd hrf hip h
    obtain ⟨⟨dt, hdt, hprim, hpip, hpv⟩, hre⟩ :=
      hgood _ (List.mem_cons_self _ _)
    have hgoodr : ∀ p ∈ rest, primItem e.tag p ∧ pyEq p.2 p.2 = true :=
      fun p hp => hgood p (List.mem_cons_of_mem _ hp)
    simp only [List.map_cons, List.nodup_cons] at hnd
    obtain ⟨hknr, hndr⟩ := hnd
    unfold applyItems at h
    dsimp only at h
    split at h
    · next hpy =>
      obtain ⟨hrf', htag', hpres', hidem'⟩ :=
        ih e e' evs hgoodr hndr hrf hip h
      refine ⟨hrf', htag', ?_, ?_⟩
      · intro q hq
        rw [List.map_cons, List.mem_cons] at hq
        exact hpres' q (fun hm => hq (Or.inr hm))
      · intro dn' x hxt hxd
        unfold applyItems
        dsimp only
        rw [hxd, hpres' k hknr, if_pos hpy]
        exact hidem' dn' x hxt hxd
    · next hpy =>
      rw [except_bind_ok] at h
      obtain ⟨cur_str, hcs, h⟩ := h
      rw [except_bind_ok] at h
      obtain ⟨new_str, hns, h⟩ := h
      rw [except_bind_ok] at h
      obtain ⟨fv, hfv, h⟩ := h
      cases fv with
      | true =>
        rw [if_pos rfl] at h
        obtain ⟨hrf', htag', hpres', hidem'⟩ :=
          ih e e' evs hgoodr hndr hrf hip h
        refine ⟨hrf', htag', ?_, ?_⟩
        · intro q hq
          rw [List.map_cons, List.mem_cons] at hq
          exact hpres' q (fun hm => hq (Or.inr hm))
        · intro dn' x hxt hxd
          unfold applyItems
          dsimp only
          rw [hxd, hxt, hpres' k hknr, htag', if_neg hpy, hcs]
          dsimp only [Except.bind]
          rw [hns]
          dsimp only [Except.bind]
          rw [hfv]
          dsimp only [Except.bind]
          rw [if_pos rfl]
          exact hidem' dn' x hxt hxd
      | false =>
        simp only [Bool.false_eq_true, if_false] at h
        split at h
        · next hstr =>
          obtain ⟨hrf', htag', hpres', hidem'⟩ :=
            ih e e' evs hgoodr hndr hrf hip h
          refine ⟨hrf', htag', ?_, ?_⟩
          · intro q hq
            rw [List.map_cons, List.mem_cons] at hq
            exact hpres' q (fun hm => hq (Or.inr hm))
          · intro dn' x hxt hxd
            unfold applyItems
            dsimp only
            rw [hxd, hxt, hpres' k hknr, htag', if_neg hpy, hcs]
            dsimp only [Except.bind]
            rw [hns]
            dsimp only [Except.bind]
            rw [hfv]
            dsimp only [Except.bind]
            simp only [Bool.false_eq_true, if_false]
            rw [if_pos hstr]
            exact hidem' dn' x hxt hxd
        · next hstr =>
          rw [except_bind_ok] at h
          obtain ⟨⟨e2r, evsr⟩, hres, h⟩ := h
          have hrf1 : relationFree
              { e with
                data := aset e.data k pv,
                updated_items := e.updated_items ++ [k] } :=
            relationFree_store hrf hdt hprim hpip _
          rw [disp_resolve_noop
            (e := { e with
                    data := aset e.data k pv,
                    updated_items := e.updated_items ++ [k] })
            hip hrf1] at hres
          cases hres
          rw [except_map_ok] at h
          obtain ⟨⟨e3, evs3⟩, hrest, heq⟩ := h
          cases heq
          obtain ⟨hrf', htag', hpres', hidem'⟩ :=
            ih { e with
                 data := aset e.data k pv,
                 updated_items := e.updated_items ++ [k] }
              e3 evs3 (fun p hp => hgoodr p hp) hndr hrf1 hip hrest
          have hatk : alookup e3.data k = some pv := by
            rw [hpres' k hknr]
            exact alookup_aset_self _ _ _
          refine ⟨hrf', htag', ?_, ?_⟩
          · intro q hq
            rw [List.map_cons, List.mem_cons] at hq
            rw [hpres' q (fun hm => hq (Or.inr hm))]
            exact alookup_aset_ne _ _ (fun hh => hq (Or.inl hh.symm))
          · intro dn' x hxt hxd
            unfold applyItems
            dsimp only
            rw [hxd, hatk, if_pos (show pyEq ((some pv).getD Value.none) pv
              = true from hre)]
            exact hidem' dn' x hxt hxd

theorem relationFree_same {e x : Entity} (ht : x.tag = e.tag)
    (hd : x.data = e.data) (h : relationFree e) : relationFree x := by
  intro p hp
  rw [ht] at hp
  have hc := h p hp
  rw [hd]
  exact hc

theorem ent_setsrc_self {E : Entity} {s : Nat} (h : E.src = some s) :
    ({ E with src := some s } : Entity) = E := by
  rw [← h]

theorem addSlug_props {t : TypeTag} {P P2 : List (String × Value)}
    (h : addSlug t P = .ok P2) :
    P2 = P ∨ ∃ r n, dmGet (typeOf t).data_model "slug" = some (.bounded n) ∧
      P2 = aset P "slug" (.str r) := by
  unfold addSlug at h
  dsimp only at h
  cases hsd : dmGet (typeOf t).data_model "slug" with
  | none =>
    rw [hsd] at h
    cases h
    exact Or.inl rfl
  | some slugdt =>
    rw [hsd] at h
    dsimp only at h
    split at h
    · split at h
      · next n =>
        split at h
        · next s' =>
          split at h
          · next r hr =>
            cases h
            exact Or.inr ⟨r, n, rfl, rfl⟩
          · cases h
        · cases h
      · cases h
    · cases h
      exact Or.inl rfl

theorem addSlug_good {t : TypeTag} {P P2 : List (String × Value)}
    (h : addSlug t P = .ok P2)
    (hgood : ∀ p ∈ P, primItem t p)
    (hnd : (P.map Prod.fst).Nodup) :
    (∀ p ∈ P2, primItem t p) ∧ ((P2.map Prod.fst).Nodup) := by
  rcases addSlug_props h with heq | ⟨r, n, hsd, heq⟩
  · subst heq
    exact ⟨hgood, hnd⟩
  · subst heq
    refine ⟨?_, aset_keys_nodup hnd⟩
    intro p hp
    rcases aset_mem hp with hp' | hp'
    · exact hgood p hp'
    · subst hp'
      exact ⟨.bounded n, hsd, rfl, rfl, rfl⟩

theorem C1_core (ops : InvOps) (fuel : Nat) (inv : Inventory) (E : Entity)
    (dd : List (String × Value)) (src : Option Nat)
    {inv₁ : Inventory} {e₁ : Entity} {evs₁ : List Ev}
    {inv₂ : Inventory} {e₂ : Entity} {evs₂ : List Ev}
    (hgood : ∀ p ∈ dd, primItem E.tag p)
    (hnd : (dd.map Prod.fst).Nodup)
    (hrf : relationFree E)
    (hip : E.tag ≠ .NBIPAddress)
    (hid : alookup dd "id" = Option.none)
    (hsrc : ∀ s, src = some s → E.src = some s)
    (h1 : base_update ops fuel inv E (some dd) false src = .ok (inv₁, e₁, evs₁))
    (h2 : base_update ops fuel inv₁ e₁ (some dd) false src =
      .ok (inv₂, e₂, evs₂)) :
    e₂ = e₁ ∧ inv₂ = inv₁ ∧ changeCount evs₂ = 0 := by
  cases src with
  | none =>
    unfold base_update at h1
    dsimp only at h1
    rw [hid] at h1
    dsimp only at h1
    split at h1
    · simp_all
    · rw [except_bind_ok] at h1
      obtain ⟨dn1, _, h1⟩ := h1
      rw [except_bind_ok] at h1
      obtain ⟨dnv, _, h1⟩ := h1
      rw [except_bind_ok] at h1
      obtain ⟨⟨inv3, P, Eev⟩, hparse1, h1⟩ := h1
      obtain ⟨hinv3, hsub, hPgood, hccE⟩ :=
        parseItems_prim_props dd hgood ops fuel inv Option.none inv3 P Eev hparse1
      rw [hinv3] at hparse1 h1
      rw [except_bind_ok] at h1
      obtain ⟨P2, hslug1, h1⟩ := h1
      obtain ⟨hP2good, hP2nd⟩ :=
        addSlug_good hslug1 hPgood (hnd.sublist hsub)
      rw [except_map_ok] at h1
      obtain ⟨⟨e3, evsA⟩, happ1, heq1⟩ := h1
      cases heq1
      have hgood2 : ∀ p ∈ P2, primItem E.tag p ∧ pyEq p.2 p.2 = true := by
        intro p hp
        obtain ⟨dt, h1', h2', h3', hpv⟩ := hP2good p hp
        exact ⟨⟨dt, h1', h2', h3', hpv⟩, pyEq_refl_prim hpv⟩
      obtain ⟨hrf₁, htag₁, hpres₁, hidem₁⟩ :=
        applyItems_idem P2 E e3 evsA hgood2 hP2nd hrf hip happ1
      have hsrc₁ : e3.src = E.src := (applyItems_fields happ1).2.2.2
      unfold base_update at h2
      dsimp only at h2
      rw [hid] at h2
      dsimp only at h2
      split at h2
      · simp_all
      · rw [except_bind_ok] at h2
        obtain ⟨dn1', _, h2⟩ := h2
        rw [except_bind_ok] at h2
        obtain ⟨dnv', _, h2⟩ := h2
        rw [except_bind_ok] at h2
        obtain ⟨⟨inv3', P', Eev'⟩, hparse2, h2⟩ := h2
        have hst := parseItems_prim_stable htag₁ dd hgood ops fuel inv Option.none
          ops fuel inv Option.none
        rw [hparse1] at hst
        rw [hst] at hparse2
        have hparse2' : (Except.ok (inv, P, Eev) :
            Except Err (Inventory × List (String × Value) × List Ev)) =
            .ok (inv3', P', Eev') := hparse2
        cases hparse2'
        rw [except_bind_ok] at h2
        obtain ⟨P2', hslug2, h2⟩ := h2
        rw [htag₁, hslug1] at hslug2
        cases hslug2
        rw [except_map_ok] at h2
        obtain ⟨⟨e4, evsB⟩, happ2, heq2⟩ := h2
        rw [hidem₁ _ e3 rfl rfl] at happ2
        cases happ2
        cases heq2
        refine ⟨rfl, rfl, ?_⟩
        rw [changeCount_append, hccE]
        rfl

  | some s =>
    have hEs : E.src = some s := hsrc s rfl
    unfold base_update at h1
    dsimp only at h1
    rw [hid] at h1
    dsimp only at h1
    split at h1
    · simp_all
    · rw [ent_setsrc_self hEs] at h1
      rw [except_bind_ok] at h1
      obtain ⟨dn1, _, h1⟩ := h1
      rw [except_bind_ok] at h1
      obtain ⟨dnv, _, h1⟩ := h1
      rw [except_bind_ok] at h1
      obtain ⟨⟨inv3, P, Eev⟩, hparse1, h1⟩ := h1
      obtain ⟨hinv3, hsub, hPgood, hccE⟩ :=
        parseItems_prim_props dd hgood ops fuel inv (some s) inv3 P Eev hparse1
      rw [hinv3] at hparse1 h1
      rw [except_bind_ok] at h1
      obtain ⟨P2, hslug1, h1⟩ := h1
      obtain ⟨hP2good, hP2nd⟩ :=
        addSlug_good hslug1 hPgood (hnd.sublist hsub)
      rw [except_map_ok] at h1
      obtain ⟨⟨e3, evsA⟩, happ1, heq1⟩ := h1
      cases heq1
      have hgood2 : ∀ p ∈ P2, primItem E.tag p ∧ pyEq p.2 p.2 = true := by
        intro p hp
        obtain ⟨dt, h1', h2', h3', hpv⟩ := hP2good p hp
        exact ⟨⟨dt, h1', h2', h3', hpv⟩, pyEq_refl_prim hpv⟩
      obtain ⟨hrf₁, htag₁, hpres₁, hidem₁⟩ :=
        applyItems_idem P2 E e3 evsA hgood2 hP2nd hrf hip happ1
      have hsrc₁ : e3.src = E.src := (applyItems_fields happ1).2.2.2
      unfold base_update at h2
      dsimp only at h2
      rw [hid] at h2
      dsimp only at h2
      split at h2
      · simp_all
      · rw [ent_setsrc_self (show e3.src = some s by
          rw [hsrc₁]; exact hEs)] at h2
        rw [except_bind_ok] at h2
        obtain ⟨dn1', _, h2⟩ := h2
        rw [except_bind_ok] at h2
        obtain ⟨dnv', _, h2⟩ := h2
        rw [except_bind_ok] at h2
        obtain ⟨⟨inv3', P', Eev'⟩, hparse2, h2⟩ := h2
        have hst := parseItems_prim_stable htag₁ dd hgood ops fuel inv (some s)
          ops fuel inv (some s)
        rw [hparse1] at hst
        rw [hst] at hparse2
        have hparse2' : (Except.ok (inv, P, Eev) :
            Except Err (Inventory × List (String × Value) × List Ev)) =
            .ok (inv3', P', Eev') := hparse2
        cases hparse2'
        rw [except_bind_ok] at h2
        obtain ⟨P2', hslug2, h2⟩ := h2
        rw [htag₁, hslug1] at hslug2
        cases hslug2
        rw [except_map_ok] at h2
        obtain ⟨⟨e4, evsB⟩, happ2, heq2⟩ := h2
        rw [hidem₁ _ e3 rfl rfl] at happ2
        cases happ2
        cases heq2
        refine ⟨rfl, rfl, ?_⟩
        rw [changeCount_append, hccE]
        rfl


set_option maxHeartbeats 1000000 in
/-- C1 counterexample: a tenant updated with a tag whose name exceeds
the 100-character bound of the tag schema.  The first application is
accepted without error and changes `name`, `tags` and `slug`; applying
the very same raw data a second time appends `tags` to the changed
attributes again — the created tag renders as its truncated name, so the
101-character request never appears present and the compiler builds a
longer collection on every pass.  The second change set is not empty. -/
theorem C1_counterexample :
    base_update (specOps 4) 6 {} (newEntity .NBTenant)
      (some [("name", .str "t"),
             ("tags", .str (String.mk (List.replicate 101 'a')))])
      false Option.none = .ok (c1Inv1, c1E1, []) ∧
    errFree [] = true ∧
    c1E1.updated_items = ["name", "tags", "slug"] ∧
    (base_update (specOps 4) 6 c1Inv1 c1E1
      (some [("name", .str "t"),
             ("tags", .str (String.mk (List.replicate 101 'a')))])
      false Option.none).map
        (fun r => (r.2.1.updated_items, changeCount r.2.2)) =
      .ok (["name", "tags", "slug", "tags"], 0) :=
  ⟨by rfl, rfl, rfl, by rfl⟩

/-- C1 (corrected): re-applying the same raw data is inert — the second
application returns the identical entity and inventory and emits no
change record — provided every supplied key is a schema key of primitive
kind carrying a primitive value (no tag lists, VLAN lists or references,
which get-or-create collaborator objects whose rendering can differ from
the raw request, breaking idempotence as the counterexample shows), the
keys are distinct, the entity's relation-valued attributes are unset or
empty, the entity is not an IP address, and the source handle, when
given, is the entity's own stamp. -/
theorem C1_second_apply_inert (ops : InvOps) (fuel : Nat) (inv : Inventory)
    (E : Entity) (dd : List (String × Value)) (src : Option Nat)
    {inv₁ : Inventory} {e₁ : Entity} {evs₁ : List Ev}
    {inv₂ : Inventory} {e₂ : Entity} {evs₂ : List Ev}
    (hgood : ∀ p ∈ dd, primItem E.tag p)
    (hnd : (dd.map Prod.fst).Nodup)
    (hrf : relationFree E)
    (hip : E.tag ≠ .NBIPAddress)
    (hsrc : ∀ s, src = some s → E.src = some s)
    (h1 : base_update ops fuel inv E (some dd) false src = .ok (inv₁, e₁, evs₁))
    (h2 : base_update ops fuel inv₁ e₁ (some dd) false src =
      .ok (inv₂, e₂, evs₂)) :
    e₂ = e₁ ∧ inv₂ = inv₁ ∧ changeCount evs₂ = 0 := by
  have hid : alookup dd "id" = Option.none := by
    cases halo : alookup dd "id" with
    | none => rfl
    | some v =>
      obtain ⟨dt, hdt, _, _, _⟩ := hgood _ (alookup_mem halo)
      rw [dmGet_id_none] at hdt
      cases hdt
  exact C1_core ops fuel inv E dd src hgood hnd hrf hip hid hsrc h1 h2

set_option maxHeartbeats 400000 in
/-- Witness for `C1_second_apply_inert`: a fresh tag entity updated
twice with `{"name": "x"}`. -/
theorem C1_second_apply_inert_witness :
    ({ tag := .NBTag, data := [("name", .str "x"), ("slug", .str "x")],
       updated_items := ["name", "slug"] } : Entity) =
      { tag := .NBTag, data := [("name", .str "x"), ("slug", .str "x")],
        updated_items := ["name", "slug"] } ∧
    ({} : Inventory) = ({} : Inventory) ∧
    changeCount [] = 0 :=
  C1_second_apply_inert failOps 2 {} { tag := .NBTag } [("name", .str "x")]
    Option.none
    (by intro p hp
        cases List.mem_singleton.mp hp
        exact ⟨.bounded 100, rfl, rfl, rfl, rfl⟩)
    (by simp)
    (by intro p hp
        exact ⟨fun _ => rfl, fun _ _ => rfl, fun _ => Or.inl rfl,
          fun _ => Or.inl rfl⟩)
    (fun h => nomatch h)
    (fun s h => nomatch h)
    rfl rfl
